import Mathlib

/-!
Verification development for the memini terminal assistant (Rust).

Strings are modelled as lists of characters (`Str`).  Each definition is a
shallow embedding of the correspondingly named Rust item; external effects
(LLM requests, the Rice memory store, the file system, MCP servers) are
modelled as oracles supplied through environment records, and the calls the
code makes to them are recorded as explicit effect values.
-/

set_option maxRecDepth 4000

abbrev Str := List Char

/-- ASCII lowercase mapping, as in Rust `char::to_ascii_lowercase`:
`'A'..='Z'` map to `'a'..='z'`, every other character is unchanged. -/
def asciiToLower (c : Char) : Char :=
  match c with
  | 'A' => 'a' | 'B' => 'b' | 'C' => 'c' | 'D' => 'd' | 'E' => 'e'
  | 'F' => 'f' | 'G' => 'g' | 'H' => 'h' | 'I' => 'i' | 'J' => 'j'
  | 'K' => 'k' | 'L' => 'l' | 'M' => 'm' | 'N' => 'n' | 'O' => 'o'
  | 'P' => 'p' | 'Q' => 'q' | 'R' => 'r' | 'S' => 's' | 'T' => 't'
  | 'U' => 'u' | 'V' => 'v' | 'W' => 'w' | 'X' => 'x' | 'Y' => 'y'
  | 'Z' => 'z'
  | other => other

/-- Rust `str::to_ascii_lowercase` on the character-list model. -/
def lowerStr (s : Str) : Str := s.map asciiToLower

/-- Rust `str::eq_ignore_ascii_case`. -/
def eqIgnoreAsciiCase (a b : Str) : Bool := lowerStr a == lowerStr b

/-- ASCII whitespace test used to model Rust `str::trim` (the recipe
patterns this is applied to are ASCII). -/
def isAsciiWs (c : Char) : Bool :=
  c == ' ' || c == '\t' || c == '\n' || c == '\r'

/-- Rust `str::trim` on the character-list model. -/
def trimStr (s : Str) : Str :=
  ((s.dropWhile isAsciiWs).reverse.dropWhile isAsciiWs).reverse

/-- Rust `str::strip_suffix(c)`: drop a final character `c` if present. -/
def stripSuffixChar (s : Str) (c : Char) : Option Str :=
  match s.getLast? with
  | some d => if d == c then some s.dropLast else none
  | none => none

-- ── src/app/agent_recipes.rs ─────────────────────────────────────────

/-- `AgentRecipe` from src/app/agent_recipes.rs (the `path` field keeps the
recipe file path as a string). -/
structure AgentRecipe where
  name : Str
  description : Str
  interval_secs : Nat
  auto_start : Bool
  trigger_events : List Str
  trigger_variables : List Str
  tools : List Str
  persona : Str
  instructions : Str
  path : Str
  deriving Repr, DecidableEq

namespace AgentRecipe

/-- `AgentRecipe::has_trigger`. -/
def has_trigger (r : AgentRecipe) : Bool :=
  !r.trigger_events.isEmpty || !r.trigger_variables.isEmpty

/-- Body of the closure inside `AgentRecipe::matches_trigger`: test one
variable pattern against the lowercased candidate name. -/
def variablePatternStep (candidate pattern : Str) : Bool :=
  let normalized := lowerStr (trimStr pattern)
  if normalized.isEmpty then false
  else if normalized == ['*'] then true
  else
    match stripSuffixChar normalized '*' with
    | some pfx => pfx.isPrefixOf candidate
    | none => candidate == normalized

/-- The event-type part of `AgentRecipe::matches_trigger` (the
`event_match` binding): empty `trigger_events` accepts exactly the
`VariableUpdate` type, case-insensitively. -/
def eventTypeMatches (r : AgentRecipe) (event_type : Str) : Bool :=
  if r.trigger_events.isEmpty then
    eqIgnoreAsciiCase event_type "VariableUpdate".data
  else
    r.trigger_events.any fun pattern => eqIgnoreAsciiCase pattern event_type

/-- `AgentRecipe::matches_trigger`. -/
def matches_trigger (r : AgentRecipe) (event_type : Str)
    (variable_name : Option Str) : Bool :=
  if !r.has_trigger then false
  else if !r.eventTypeMatches event_type then false
  else if r.trigger_variables.isEmpty then true
  else
    match variable_name with
    | none => false
    | some name =>
        let candidate := lowerStr name
        r.trigger_variables.any fun pattern =>
          variablePatternStep candidate pattern

end AgentRecipe

/-- Variable-pattern matching as the specification words it: an exact
case-insensitive match, the single wildcard `*`, or a trailing-`*` prefix
match.  Stated from the spec, to be compared with `variablePatternStep`
coming from the source. -/
def specVariablePatternMatches (name pattern : Str) : Bool :=
  eqIgnoreAsciiCase name pattern
    || pattern == ['*']
    || (match stripSuffixChar pattern '*' with
        | some pfx => (lowerStr pfx).isPrefixOf (lowerStr name)
        | none => false)

-- ── helper lemmas on the string model ────────────────────────────────

theorem asciiToLower_star (c : Char) (h : asciiToLower c = '*') : c = '*' := by
  unfold asciiToLower at h
  split at h <;> simp_all

set_option linter.unnecessarySimpa false

theorem lowerStr_length (s : Str) : (lowerStr s).length = s.length := by
  simp [lowerStr]

theorem lowerStr_star (s : Str) (h : lowerStr s = ['*']) : s = ['*'] := by
  cases s with
  | nil => simp [lowerStr] at h
  | cons a t =>
      cases t with
      | nil =>
          simp [lowerStr] at h
          simp [asciiToLower_star a h]
      | cons b u => simp [lowerStr] at h

theorem lowerStr_getLast? (s : Str) :
    (lowerStr s).getLast? = s.getLast?.map asciiToLower := by
  induction s with
  | nil => simp [lowerStr]
  | cons a t ih =>
      cases t with
      | nil => simp [lowerStr]
      | cons b u =>
          simp only [lowerStr, List.map_cons] at ih ⊢
          rw [List.getLast?_cons_cons, List.getLast?_cons_cons, ih]

theorem lowerStr_dropLast (s : Str) :
    (lowerStr s).dropLast = lowerStr s.dropLast := by
  simpa [lowerStr] using (List.map_dropLast asciiToLower s).symm

theorem stripSuffixChar_star_lower (s : Str) :
    stripSuffixChar (lowerStr s) '*'
      = (stripSuffixChar s '*').map lowerStr := by
  unfold stripSuffixChar
  rw [lowerStr_getLast?]
  cases h : s.getLast? with
  | none => simp
  | some d =>
      simp only [Option.map_some]
      by_cases hd : d = '*'
      · subst hd
        simp [asciiToLower, lowerStr_dropLast]
      · have : asciiToLower d ≠ '*' := fun hc => hd (asciiToLower_star d hc)
        simp [hd, this]

/-- On trimmed, non-empty patterns the source closure and the
spec-worded pattern match agree. -/
theorem variablePatternStep_eq_spec (name pattern : Str)
    (htrim : trimStr pattern = pattern) (hne : pattern ≠ []) :
    AgentRecipe.variablePatternStep (lowerStr name) pattern
      = specVariablePatternMatches name pattern := by
  have hnempty : (lowerStr pattern).isEmpty = false := by
    cases hp : pattern with
    | nil => exact absurd hp hne
    | cons a t => simp [lowerStr]
  by_cases hstar : pattern = ['*']
  · subst hstar
    have h1 : AgentRecipe.variablePatternStep (lowerStr name) ['*'] = true := rfl
    have h2 : specVariablePatternMatches name ['*'] = true := by
      simp [specVariablePatternMatches]
    rw [h1, h2]
  · have hlstar : lowerStr pattern ≠ ['*'] :=
      fun h => hstar (lowerStr_star pattern h)
    have hbeq : (pattern == ['*']) = false := beq_eq_false_iff_ne.mpr hstar
    have hbl : (lowerStr pattern == ['*']) = false := beq_eq_false_iff_ne.mpr hlstar
    unfold AgentRecipe.variablePatternStep specVariablePatternMatches
    rw [htrim]
    simp only [hnempty, hbeq, hbl, Bool.false_eq_true, if_false, Bool.or_false]
    rw [stripSuffixChar_star_lower]
    cases hsuf : stripSuffixChar pattern '*' with
    | none => simp [eqIgnoreAsciiCase]
    | some pfx =>
        simp only [Option.map_some]
        have himp : eqIgnoreAsciiCase name pattern = true →
            (lowerStr pfx).isPrefixOf (lowerStr name) = true := by
          intro heq
          have heq' : lowerStr name = lowerStr pattern := by
            simpa [eqIgnoreAsciiCase] using heq
          have hpat : pfx = pattern.dropLast := by
            unfold stripSuffixChar at hsuf
            cases hlast : pattern.getLast? with
            | none => simp [hlast] at hsuf
            | some d =>
                simp only [hlast] at hsuf
                by_cases hd : (d == '*') = true
                · simp only [hd, if_true, Option.some.injEq] at hsuf
                  exact hsuf.symm
                · simp [hd] at hsuf
          subst hpat
          rw [heq', List.isPrefixOf_iff_prefix]
          exact (List.dropLast_prefix pattern).map asciiToLower
        cases ha : (lowerStr pfx).isPrefixOf (lowerStr name) with
        | true => simp [ha]
        | false =>
            cases he : eqIgnoreAsciiCase name pattern with
            | false => simp [he, ha]
            | true => exact absurd (himp he) (by simp [ha])

/-- Boolean `any` is pointwise-congruent on a list. -/
theorem list_any_congr {α : Type} (l : List α) (f g : α → Bool)
    (h : ∀ a ∈ l, f a = g a) : l.any f = l.any g := by
  induction l with
  | nil => rfl
  | cons a t ih =>
      simp only [List.any_cons]
      rw [h a (by simp), ih (fun b hb => h b (by simp [hb]))]

-- ── C3 / C4: trigger matching ────────────────────────────────────────

/-- Sample recipe used by the concrete witnesses: the trigger filter of the
spec example (`trigger_events = [VariableUpdate]`,
`trigger_variables = [deploy.request, ci.*]`). -/
def sampleTriggerRecipe : AgentRecipe where
  name := "trigger-agent".data
  description := []
  interval_secs := 600
  auto_start := true
  trigger_events := ["VariableUpdate".data]
  trigger_variables := ["deploy.request".data, "ci.*".data]
  tools := []
  persona := []
  instructions := "React to deployment-related updates.".data
  path := []

/-- Sample recipe with no trigger fields at all (interval-only task). -/
def sampleIntervalRecipe : AgentRecipe where
  name := "quiet-agent".data
  description := []
  interval_secs := 1800
  auto_start := false
  trigger_events := []
  trigger_variables := []
  tools := []
  persona := []
  instructions := "Summarize unfinished tasks.".data
  path := []

/-- C3: for a task with non-empty `trigger_variables` (patterns in the
normal form produced by recipe parsing: trimmed and non-empty) and an
event whose type matches, `matches_trigger` returns true iff the event
carries a variable name matching at least one pattern — exact
case-insensitive equality, the `*` wildcard, or a trailing-`*` prefix
match; with no variable name the result is false. -/
theorem matches_trigger_variable_filter (r : AgentRecipe) (event_type : Str)
    (variable_name : Option Str)
    (hvars : r.trigger_variables ≠ [])
    (hnorm : ∀ p ∈ r.trigger_variables, trimStr p = p ∧ p ≠ [])
    (hevent : r.eventTypeMatches event_type = true) :
    r.matches_trigger event_type variable_name = true ↔
      ∃ n, variable_name = some n ∧
        ∃ p ∈ r.trigger_variables, specVariablePatternMatches n p = true := by
  have htr : r.has_trigger = true := by
    unfold AgentRecipe.has_trigger
    cases hv : r.trigger_variables with
    | nil => exact absurd hv hvars
    | cons a t => simp [hv]
  have hvne : r.trigger_variables.isEmpty = false := by
    cases hv : r.trigger_variables with
    | nil => exact absurd hv hvars
    | cons a t => simp [hv]
  unfold AgentRecipe.matches_trigger
  simp only [htr, hevent, hvne, Bool.not_true, Bool.false_eq_true, if_false,
    Bool.true_eq_false]
  cases variable_name with
  | none => simp
  | some n =>
      show (r.trigger_variables.any fun pattern =>
          AgentRecipe.variablePatternStep (lowerStr n) pattern) = true ↔ _
      rw [list_any_congr r.trigger_variables
        (fun pattern => AgentRecipe.variablePatternStep (lowerStr n) pattern)
        (fun p => specVariablePatternMatches n p)
        (fun p hp =>
          variablePatternStep_eq_spec n p (hnorm p hp).1 (hnorm p hp).2)]
      rw [List.any_eq_true]
      constructor
      · intro h
        exact ⟨n, rfl, h⟩
      · rintro ⟨m, hm, hp⟩
        injection hm with hm
        exact hm ▸ hp

/-- Witness for C3 at the spec example: `ci.build.42` and
`deploy.request` match, `other.key` and a missing variable name do not. -/
theorem matches_trigger_variable_filter_witness :
    sampleTriggerRecipe.matches_trigger "VariableUpdate".data
        (some "ci.build.42".data) = true
      ∧ sampleTriggerRecipe.matches_trigger "VariableUpdate".data
        (some "deploy.request".data) = true
      ∧ sampleTriggerRecipe.matches_trigger "VariableUpdate".data
        (some "other.key".data) = false
      ∧ sampleTriggerRecipe.matches_trigger "VariableUpdate".data none = false := by
  have hci := matches_trigger_variable_filter sampleTriggerRecipe
    "VariableUpdate".data (some "ci.build.42".data)
    (by decide) (by decide) (by decide)
  have hdep := matches_trigger_variable_filter sampleTriggerRecipe
    "VariableUpdate".data (some "deploy.request".data)
    (by decide) (by decide) (by decide)
  have hoth := matches_trigger_variable_filter sampleTriggerRecipe
    "VariableUpdate".data (some "other.key".data)
    (by decide) (by decide) (by decide)
  have hnone := matches_trigger_variable_filter sampleTriggerRecipe
    "VariableUpdate".data none
    (by decide) (by decide) (by decide)
  refine ⟨?_, ?_, ?_, ?_⟩
  · exact hci.mpr ⟨_, rfl, "ci.*".data, by decide, by decide⟩
  · exact hdep.mpr ⟨_, rfl, "deploy.request".data, by decide, by decide⟩
  · cases hm : sampleTriggerRecipe.matches_trigger "VariableUpdate".data
        (some "other.key".data) with
    | false => rfl
    | true =>
        rcases hoth.mp hm with ⟨m, hmeq, hp⟩
        injection hmeq with hmeq
        subst hmeq
        exact absurd hp (by decide)
  · cases hm : sampleTriggerRecipe.matches_trigger "VariableUpdate".data none with
    | false => rfl
    | true =>
        rcases hnone.mp hm with ⟨m, hmeq, _⟩
        exact Option.noConfusion hmeq

/-- C4: a task whose `trigger_events` and `trigger_variables` are both
empty never fires on events: `matches_trigger` is false for every event
type and every optional variable name. -/
theorem matches_trigger_empty_triggers_false (r : AgentRecipe)
    (event_type : Str) (variable_name : Option Str)
    (he : r.trigger_events = []) (hv : r.trigger_variables = []) :
    r.matches_trigger event_type variable_name = false := by
  unfold AgentRecipe.matches_trigger AgentRecipe.has_trigger
  simp [he, hv]

/-- Witness for C4 at a concrete no-trigger recipe and concrete events. -/
theorem matches_trigger_empty_triggers_false_witness :
    sampleIntervalRecipe.matches_trigger "VariableUpdate".data
        (some "deploy.request".data) = false
      ∧ sampleIntervalRecipe.matches_trigger "Commit".data none = false := by
  exact ⟨matches_trigger_empty_triggers_false sampleIntervalRecipe
      "VariableUpdate".data (some "deploy.request".data) rfl rfl,
    matches_trigger_empty_triggers_false sampleIntervalRecipe
      "Commit".data none rfl rfl⟩

-- ── src/app/chat.rs model ────────────────────────────────────────────

/-- `MAX_TOOL_LOOPS` from src/constants.rs. -/
def MAX_TOOL_LOOPS : Nat := 6

/-- Log levels from src/app/logging.rs. -/
inductive LogLevel
  | info
  | warn
  | error
  deriving Repr, DecidableEq

/-- The log lines emitted along the modelled code paths, one constructor
per call site (the formatted text is abstracted to its arguments). -/
inductive LogMsg
  | openaiKeyMissing (e : Str)
  | keyConfigureHint
  | noMcpConnections
  | riceFocusFailed (e : Str)
  | riceRecallFailed (e : Str)
  | riceRecalled (n : Nat)
  | mcpToolsRefreshFailed (id : Str) (e : Str)
  | failedLoadMcpTools (e : Str)
  | openaiRequestFailed (e : Str)
  | toolLoopLimitReached
  | callingTool (name : Str)
  | noResponseReceived
  | assistantReply (label : Str) (text : Str)
  | threadSaveFailed (e : Str)
  | riceCommitFailed (e : Str)
  deriving Repr, DecidableEq

abbrev LogEntry := LogLevel × LogMsg

/-- `ToolCall` from src/openai.rs (absent from this snapshot; the shape —
name, JSON arguments, call id — is fixed by its uses in src/app/chat.rs
and src/main.rs).  Arguments are kept as their serialized text. -/
structure ToolCall where
  name : Str
  arguments : Str
  call_id : Str
  deriving Repr, DecidableEq

/-- Modelled from the spec: one item of an LLM response — plain text,
a tool-call request, or something else (`extract_output_items` lives in
the absent src/openai.rs). -/
inductive OutputItem
  | textItem (s : Str)
  | toolCallItem (c : ToolCall)
  | otherItem
  deriving Repr, DecidableEq

/-- An LLM response as a list of output items. -/
structure LlmResponse where
  items : List OutputItem
  deriving Repr, DecidableEq

/-- Modelled from the spec: `extract_output_text` collects the plain-text
output of a response. -/
def extract_output_text (items : List OutputItem) : Str :=
  (items.filterMap fun i =>
    match i with
    | .textItem s => some s
    | _ => none).flatten

/-- Modelled from the spec: `extract_tool_calls` collects the tool-call
requests of a response. -/
def extract_tool_calls (items : List OutputItem) : List ToolCall :=
  items.filterMap fun i =>
    match i with
    | .toolCallItem c => some c
    | _ => none

/-- Modelled from the spec: `tool_loop_limit_reached` from the absent
src/openai.rs; src/main.rs inlines the same check
(`tool_loops >= MAX_TOOL_LOOPS`). -/
def tool_loop_limit_reached (n : Nat) : Bool := decide (MAX_TOOL_LOOPS ≤ n)

/-- One message of the model input / conversation thread (the
role-tagged JSON values pushed onto `input` and `conversation_thread`). -/
inductive InputItem
  | systemMsg (content : Str)
  | userMsg (content : Str)
  | assistantMsg (content : Str)
  | modelItems (items : List OutputItem)
  | functionCallOutput (callId : Str) (output : Str)
  deriving Repr, DecidableEq

/-- A tool definition from an MCP server (name and description; the
input schema is not relevant to any modelled property). -/
structure McpToolDef where
  name : Str
  description : Str
  deriving Repr, DecidableEq

/-- One entry of `App.mcp_connections`: the server id key and the
connection's `tool_cache`. -/
structure McpConnection where
  serverId : Str
  tool_cache : List McpToolDef
  deriving Repr, DecidableEq

/-- An OpenAI-format tool definition, reduced to its name (description
and JSON schema carry no information used by any modelled property). -/
structure OpenAiToolDef where
  name : Str
  deriving Repr, DecidableEq

/-- Modelled from the spec: `tools_to_openai_namespaced` from the absent
newer src/mcp module — every tool of a server, namespaced by the server
id to avoid name collisions. -/
def tools_to_openai_namespaced (serverId : Str) (tools : List McpToolDef) :
    List OpenAiToolDef :=
  tools.map fun t => ⟨serverId ++ [':'] ++ t.name⟩

/-- The built-in `spawn_agent` tool injected in `handle_chat_message`. -/
def spawn_agent_tool : OpenAiToolDef := ⟨"spawn_agent".data⟩

/-- Modelled from the spec: `format_memories` from the absent src/rice.rs
— formats recalled entries into a context block, empty iff none. -/
def format_memories (memories : List Str) : Str :=
  if memories.isEmpty then []
  else "Relevant memories:".data ++ (memories.map fun m => '\n' :: m).flatten

/-- Modelled from the spec: `system_prompt` from the absent src/rice.rs —
the persona system prompt (the `require_mcp` flag only varies wording). -/
def system_prompt (persona : Str) (_require_mcp : Bool) : Str := persona

/-- Modelled from the spec: `agent_id_for` from the absent src/rice.rs —
the agent identity derived from the persona name. -/
def agent_id_for (name : Str) : Str := name

/-- The JSON error object substituted for a failing tool call. -/
def toolErrorJson (e : Str) : Str :=
  "\x7b\"error\":\"".data ++ e ++ "\"\x7d".data

/-- Oracle results for every external call a chat turn makes.
`MAX_THREAD_MESSAGES` is the thread-length cap from src/constants.rs
(this snapshot of that file predates the constant, so its value is kept
abstract here). -/
structure ChatEnv where
  keyResult : Except Str Str
  focusResult : Except Str Unit
  reminisceResult : Except Str (List Str)
  refreshTools : Str → Except Str (List McpToolDef)
  respond : Nat → Except Str LlmResponse
  spawnAgentOutput : ToolCall → Str
  mcpToolResult : ToolCall → Except Str Str
  saveThreadResult : Except Str Unit
  commitResult : Except Str Unit
  MAX_THREAD_MESSAGES : Nat

/-- External calls performed during a turn, in order. -/
inductive ChatEffect
  | focused (message : Str)
  | recalled (memories : List Str)
  | refreshedTools (serverId : Str)
  | llmCalled (idx : Nat) (tools : List OpenAiToolDef)
  | executedTool (name : Str) (callId : Str)
  | spawnedAgentTool (callId : Str)
  | savedThread (thread : List InputItem)
  | committedTrace (input outcome action : Str)
  deriving Repr, DecidableEq

/-- The portion of `App` state a chat turn touches. -/
structure ChatState where
  mcp_connections : List McpConnection
  conversation_thread : List InputItem
  logs : List LogEntry
  effects : List ChatEffect
  personaName : Str
  persona : Str
  deriving Repr, DecidableEq

/-- Result of `openai_tools_for_mcp`: refreshed connections, warnings,
effects, and the tool list (`Ok(None)` when tools are optional and none
are available). -/
structure ToolsResolution where
  conns : List McpConnection
  logs : List LogEntry
  effects : List ChatEffect
  result : Except Str (Option (List OpenAiToolDef))

/-- One step of the refresh pass of `openai_tools_for_mcp`: a connection
with an empty `tool_cache` gets a `refresh_tools` call; a failure
produces a warning and leaves the cache empty. -/
def refreshStep (env : ChatEnv)
    (acc : List McpConnection × List LogEntry × List ChatEffect)
    (c : McpConnection) :
    List McpConnection × List LogEntry × List ChatEffect :=
  if c.tool_cache.isEmpty then
    match env.refreshTools c.serverId with
    | .ok ts =>
        (acc.1 ++ [{ c with tool_cache := ts }], acc.2.1,
          acc.2.2 ++ [.refreshedTools c.serverId])
    | .error e =>
        (acc.1 ++ [c],
          acc.2.1 ++ [(.warn, .mcpToolsRefreshFailed c.serverId e)],
          acc.2.2 ++ [.refreshedTools c.serverId])
  else (acc.1 ++ [c], acc.2.1, acc.2.2)

/-- The refresh pass of `openai_tools_for_mcp` over all connections. -/
def refreshConnections (env : ChatEnv) (conns : List McpConnection) :
    List McpConnection × List LogEntry × List ChatEffect :=
  conns.foldl (refreshStep env) ([], [], [])

/-- `App::openai_tools_for_mcp` from src/app/chat.rs. -/
def openai_tools_for_mcp (env : ChatEnv) (conns : List McpConnection)
    (require_mcp : Bool) : ToolsResolution :=
  if conns.isEmpty then
    if require_mcp then
      ⟨conns, [], [], .error "No active MCP connection".data⟩
    else ⟨conns, [], [], .ok none⟩
  else
    let refreshed := refreshConnections env conns
    let openai_tools :=
      ((refreshed.1.filter fun c => !c.tool_cache.isEmpty).map fun c =>
        tools_to_openai_namespaced c.serverId c.tool_cache).flatten
    if openai_tools.isEmpty then
      if require_mcp then
        ⟨refreshed.1, refreshed.2.1, refreshed.2.2,
          .error "MCP connected but no tools available".data⟩
      else ⟨refreshed.1, refreshed.2.1, refreshed.2.2, .ok none⟩
    else ⟨refreshed.1, refreshed.2.1, refreshed.2.2, .ok (some openai_tools)⟩

/-- The injection step of `handle_chat_message`:
`tools.get_or_insert_with(Vec::new).push(spawn_tool)`. -/
def injectBuiltinTools (tools0 : Option (List OpenAiToolDef)) :
    List OpenAiToolDef :=
  tools0.getD [] ++ [spawn_agent_tool]

/-- The full tool set a chat turn hands to the language model (or the
error that aborts the turn while resolving it). -/
def chatTurnToolSet (env : ChatEnv) (conns : List McpConnection)
    (require_mcp : Bool) : Except Str (List OpenAiToolDef) :=
  (openai_tools_for_mcp env conns require_mcp).result.map injectBuiltinTools

/-- State threaded through the tool-call loop of `handle_chat_message`. -/
structure ToolLoopState where
  input : List InputItem
  output_text : Str
  tool_calls : List ToolCall
  tool_loops : Nat
  nextCall : Nat
  tools : List OpenAiToolDef
  logs : List LogEntry
  effects : List ChatEffect

/-- The `for call in tool_calls` body: execute each call (routing
`spawn_agent` to the window manager, the rest to MCP), and append a
`function_call_output` item per call; a tool failure becomes a JSON
error object instead of aborting. -/
def runToolBatch (env : ChatEnv) (calls : List ToolCall)
    (input : List InputItem) (logs : List LogEntry)
    (effects : List ChatEffect) :
    List InputItem × List LogEntry × List ChatEffect :=
  match calls with
  | [] => (input, logs, effects)
  | call :: rest =>
      let logs := logs ++ [(.info, .callingTool call.name)]
      let out :=
        if call.name == "spawn_agent".data then
          (env.spawnAgentOutput call, effects ++ [.spawnedAgentTool call.call_id])
        else
          match env.mcpToolResult call with
          | .ok s => (s, effects ++ [.executedTool call.name call.call_id])
          | .error e =>
              (toolErrorJson e, effects ++ [.executedTool call.name call.call_id])
      runToolBatch env rest
        (input ++ [.functionCallOutput call.call_id out.1]) logs out.2

/-- The tool-call loop of `handle_chat_message`: while tool calls remain
and the loop counter has not reached `MAX_TOOL_LOOPS`, execute the calls
and ask the model again; an LLM failure inside the loop logs an error and
breaks (the turn continues). -/
def tool_loop (env : ChatEnv) (st : ToolLoopState) : ToolLoopState :=
  if st.tool_calls.isEmpty then st
  else if tool_loop_limit_reached st.tool_loops then
    { st with logs := st.logs ++ [(.warn, .toolLoopLimitReached)] }
  else
    let batch := runToolBatch env st.tool_calls st.input st.logs st.effects
    match env.respond st.nextCall with
    | .error e =>
        { st with
          input := batch.1
          logs := batch.2.1 ++ [(.error, .openaiRequestFailed e)]
          effects := batch.2.2 ++ [.llmCalled st.nextCall st.tools]
          tool_loops := st.tool_loops + 1
          nextCall := st.nextCall + 1
          tool_calls := [] }
    | .ok r =>
        tool_loop env
          { input :=
              if r.items.isEmpty then batch.1 else batch.1 ++ [.modelItems r.items]
            output_text := extract_output_text r.items
            tool_calls := extract_tool_calls r.items
            tool_loops := st.tool_loops + 1
            nextCall := st.nextCall + 1
            tools := st.tools
            logs := batch.2.1
            effects := batch.2.2 ++ [.llmCalled st.nextCall st.tools] }
termination_by MAX_TOOL_LOOPS - st.tool_loops
decreasing_by
  simp [tool_loop_limit_reached] at *
  omega

/-- The thread-trimming loop of `handle_chat_message`:
`while thread.len() > max { thread.drain(0..2); }`. -/
def trimThread (maxLen : Nat) (thread : List InputItem) : List InputItem :=
  if thread.length > maxLen then trimThread maxLen (thread.drop 2) else thread
termination_by thread.length
decreasing_by
  simp at *
  omega

/-- The recall phase of `handle_chat_message`: Rice focus, memory
recall (a failure degrades to an empty list with a warning), and the
recall count log line.  Returns the updated state and the memories. -/
def chatRecallPhase (env : ChatEnv) (st : ChatState) (message : Str) :
    ChatState × List Str :=
  let st : ChatState :=
    { st with
      effects := st.effects ++ [.focused message]
      logs := st.logs ++
        ((match env.focusResult with
          | .error e => [(.warn, .riceFocusFailed e)]
          | .ok _ => []) : List LogEntry) }
  let recallStep : List Str × ChatState :=
    match env.reminisceResult with
    | .ok traces =>
        (traces, { st with effects := st.effects ++ [.recalled traces] })
    | .error e =>
        ([], { st with logs := st.logs ++ [(.warn, .riceRecallFailed e)] })
  let memories := recallStep.1
  let st := recallStep.2
  let st : ChatState :=
    if memories.isEmpty then st
    else { st with logs := st.logs ++ [(.info, .riceRecalled memories.length)] }
  (st, memories)

/-- The tail of `handle_chat_message` after the tool loop: display the
result (or a no-response warning), append the user/assistant pair, trim
the thread to the cap, persist the thread, commit the trace (persist and
commit failures are warnings only). -/
def chatFinishTurn (env : ChatEnv) (st : ChatState)
    (message output_text : Str) : ChatState :=
  let st : ChatState :=
    if output_text.isEmpty then
      { st with logs := st.logs ++ [(.warn, .noResponseReceived)] }
    else
      { st with
        logs := st.logs ++ [(.info, .assistantReply st.personaName output_text)] }
  let thread := st.conversation_thread ++ [.userMsg message]
  let thread :=
    if output_text.isEmpty then thread else thread ++ [.assistantMsg output_text]
  let thread := trimThread env.MAX_THREAD_MESSAGES thread
  let st : ChatState := { st with conversation_thread := thread }
  let st : ChatState :=
    { st with
      effects := st.effects ++ [.savedThread thread]
      logs := st.logs ++
        ((match env.saveThreadResult with
          | .error e => [(.warn, .threadSaveFailed e)]
          | .ok _ => []) : List LogEntry) }
  { st with
    effects := st.effects ++
      [.committedTrace message output_text "chat".data]
    logs := st.logs ++
      ((match env.commitResult with
        | .error e => [(.warn, .riceCommitFailed e)]
        | .ok _ => []) : List LogEntry) }

/-- `App::handle_chat_message` from src/app/chat.rs: recall, prompt
assembly, tool resolution, the bounded tool-call loop, display, thread
trim, thread persist, trace commit. -/
def handle_chat_message (env : ChatEnv) (st : ChatState) (message : Str)
    (require_mcp : Bool) : ChatState :=
  match env.keyResult with
  | .error err =>
      { st with
        logs := st.logs ++ [(.error, .openaiKeyMissing err), (.info, .keyConfigureHint)] }
  | .ok _key =>
  if require_mcp && st.mcp_connections.isEmpty then
    { st with logs := st.logs ++ [(.warn, .noMcpConnections)] }
  else
    let pre := chatRecallPhase env st message
    let st := pre.1
    let memories := pre.2
    let memory_context := format_memories memories
    let input :=
      [InputItem.systemMsg (system_prompt st.persona require_mcp)]
        ++ (if memory_context.isEmpty then [] else [InputItem.systemMsg memory_context])
        ++ st.conversation_thread
        ++ [InputItem.userMsg message]
    let tr := openai_tools_for_mcp env st.mcp_connections require_mcp
    let st : ChatState :=
      { st with
        mcp_connections := tr.conns
        logs := st.logs ++ tr.logs
        effects := st.effects ++ tr.effects }
    match tr.result with
    | .error err =>
        { st with logs := st.logs ++ [(.error, .failedLoadMcpTools err)] }
    | .ok tools0 =>
        let tools := injectBuiltinTools tools0
        match env.respond 0 with
        | .error err =>
            { st with
              logs := st.logs ++ [(.error, .openaiRequestFailed err)]
              effects := st.effects ++ [.llmCalled 0 tools] }
        | .ok r =>
            let st : ChatState :=
              { st with effects := st.effects ++ [.llmCalled 0 tools] }
            let input :=
              if r.items.isEmpty then input else input ++ [.modelItems r.items]
            let ls := tool_loop env
              { input := input
                output_text := extract_output_text r.items
                tool_calls := extract_tool_calls r.items
                tool_loops := 0
                nextCall := 1
                tools := tools
                logs := []
                effects := [] }
            let st : ChatState :=
              { st with logs := st.logs ++ ls.logs, effects := st.effects ++ ls.effects }
            chatFinishTurn env st message ls.output_text

-- ── C2: bounded tool-call loop ───────────────────────────────────────

theorem tool_loop_loops_le (env : ChatEnv) (st : ToolLoopState)
    (h : st.tool_loops ≤ MAX_TOOL_LOOPS) :
    (tool_loop env st).tool_loops ≤ MAX_TOOL_LOOPS := by
  generalize hk : MAX_TOOL_LOOPS - st.tool_loops = k
  induction k generalizing st with
  | zero =>
      rw [tool_loop]
      split
      · exact h
      · split
        · exact h
        · rename_i hlim
          simp only [tool_loop_limit_reached, decide_eq_true_eq] at hlim
          omega
  | succ k ih =>
      rw [tool_loop]
      split
      · exact h
      · split
        · exact h
        · rename_i hlim
          simp only [tool_loop_limit_reached, decide_eq_true_eq] at hlim
          cases hr : env.respond st.nextCall with
          | error e =>
              show st.tool_loops + 1 ≤ MAX_TOOL_LOOPS
              omega
          | ok r =>
              refine ih _ ?_ ?_
              · show st.tool_loops + 1 ≤ MAX_TOOL_LOOPS
                omega
              · show MAX_TOOL_LOOPS - (st.tool_loops + 1) = k
                omega

theorem tool_loop_adversarial (env : ChatEnv)
    (hok : ∀ k, ∃ r, env.respond k = .ok r ∧ extract_tool_calls r.items ≠ []) :
    ∀ st : ToolLoopState, st.tool_loops ≤ MAX_TOOL_LOOPS → st.tool_calls ≠ [] →
      (tool_loop env st).tool_loops = MAX_TOOL_LOOPS ∧
        (LogLevel.warn, LogMsg.toolLoopLimitReached) ∈ (tool_loop env st).logs := by
  intro st h hcalls
  generalize hk : MAX_TOOL_LOOPS - st.tool_loops = k
  induction k generalizing st with
  | zero =>
      rw [tool_loop]
      split
      · rename_i hemp
        exact absurd (List.isEmpty_iff.mp hemp) hcalls
      · split
        · rename_i hlim
          simp only [tool_loop_limit_reached, decide_eq_true_eq] at hlim
          constructor
          · show st.tool_loops = MAX_TOOL_LOOPS
            omega
          · show _ ∈ st.logs ++ [(LogLevel.warn, LogMsg.toolLoopLimitReached)]
            simp
        · rename_i hlim
          simp only [tool_loop_limit_reached, decide_eq_true_eq] at hlim
          omega
  | succ k ih =>
      rw [tool_loop]
      split
      · rename_i hemp
        exact absurd (List.isEmpty_iff.mp hemp) hcalls
      · split
        · rename_i hlim
          simp only [tool_loop_limit_reached, decide_eq_true_eq] at hlim
          constructor
          · show st.tool_loops = MAX_TOOL_LOOPS
            omega
          · show _ ∈ st.logs ++ [(LogLevel.warn, LogMsg.toolLoopLimitReached)]
            simp
        · rename_i hlim
          simp only [tool_loop_limit_reached, decide_eq_true_eq] at hlim
          rcases hok st.nextCall with ⟨r, hr, hrt⟩
          rw [hr]
          refine ih _ ?_ ?_ ?_
          · show st.tool_loops + 1 ≤ MAX_TOOL_LOOPS
            omega
          · show extract_tool_calls r.items ≠ []
            exact hrt
          · show MAX_TOOL_LOOPS - (st.tool_loops + 1) = k
            omega

/-- C2: the tool-call loop of a conversation turn performs at most
`MAX_TOOL_LOOPS = 6` iterations; when every LLM response keeps returning
tool calls it stops after exactly `MAX_TOOL_LOOPS` iterations with a
loop-limit warning. -/
theorem tool_call_loop_bounded (env : ChatEnv) (st : ToolLoopState)
    (hstart : st.tool_loops = 0) :
    (tool_loop env st).tool_loops ≤ MAX_TOOL_LOOPS ∧
      ((∀ k, ∃ r, env.respond k = .ok r ∧ extract_tool_calls r.items ≠ []) →
        st.tool_calls ≠ [] →
        (tool_loop env st).tool_loops = MAX_TOOL_LOOPS ∧
          (LogLevel.warn, LogMsg.toolLoopLimitReached) ∈ (tool_loop env st).logs) := by
  refine ⟨tool_loop_loops_le env st (by omega), ?_⟩
  intro hok hcalls
  exact tool_loop_adversarial env hok st (by omega) hcalls

/-- Concrete adversarial environment: every LLM response requests one
more tool call. -/
def adversarialEnv : ChatEnv where
  keyResult := .ok "k".data
  focusResult := .ok ()
  reminisceResult := .ok []
  refreshTools := fun _ => .ok []
  respond := fun _ =>
    .ok ⟨[.toolCallItem ⟨"t".data, "null".data, "c".data⟩]⟩
  spawnAgentOutput := fun _ => []
  mcpToolResult := fun _ => .ok "null".data
  saveThreadResult := .ok ()
  commitResult := .ok ()
  MAX_THREAD_MESSAGES := 40

/-- Initial loop state holding one pending tool call. -/
def adversarialLoopStart : ToolLoopState where
  input := []
  output_text := []
  tool_calls := [⟨"t".data, "null".data, "c0".data⟩]
  tool_loops := 0
  nextCall := 1
  tools := [spawn_agent_tool]
  logs := []
  effects := []

/-- Witness for C2 at the concrete adversarial environment. -/
theorem tool_call_loop_bounded_witness :
    (tool_loop adversarialEnv adversarialLoopStart).tool_loops ≤ MAX_TOOL_LOOPS ∧
      (tool_loop adversarialEnv adversarialLoopStart).tool_loops = MAX_TOOL_LOOPS ∧
        (LogLevel.warn, LogMsg.toolLoopLimitReached)
          ∈ (tool_loop adversarialEnv adversarialLoopStart).logs := by
  have h := tool_call_loop_bounded adversarialEnv adversarialLoopStart rfl
  refine ⟨h.1, h.2 ?_ ?_⟩
  · intro k
    exact ⟨_, rfl, by decide⟩
  · decide

-- ── C9: conversation-thread cap ──────────────────────────────────────

theorem trimThread_length_le (maxLen : Nat) (l : List InputItem) :
    (trimThread maxLen l).length ≤ maxLen := by
  generalize hn : l.length = n
  induction n using Nat.strong_induction_on generalizing l with
  | _ n ih =>
      rw [trimThread]
      split
      · rename_i hgt
        exact ih ((l.drop 2).length) (by simp; omega) _ rfl
      · omega

theorem chatRecallPhase_thread (env : ChatEnv) (st : ChatState)
    (message : Str) :
    (chatRecallPhase env st message).1.conversation_thread
      = st.conversation_thread := by
  unfold chatRecallPhase
  cases env.reminisceResult <;> dsimp only <;> split <;> rfl

theorem chatFinishTurn_thread_le (env : ChatEnv) (st : ChatState)
    (message output_text : Str) :
    (chatFinishTurn env st message output_text).conversation_thread.length
      ≤ env.MAX_THREAD_MESSAGES := by
  unfold chatFinishTurn
  repeat' (first | split | dsimp only)
  all_goals exact trimThread_length_le _ _

/-- C9: a chat turn never leaves the conversation thread longer than the
thread cap — the turn either aborts with the thread untouched or appends
the new user/assistant pair and trims pairs from the front until the
length is within the cap. -/
theorem chat_turn_thread_capped (env : ChatEnv) (st : ChatState)
    (message : Str) (require_mcp : Bool)
    (h : st.conversation_thread.length ≤ env.MAX_THREAD_MESSAGES) :
    (handle_chat_message env st message require_mcp).conversation_thread.length
      ≤ env.MAX_THREAD_MESSAGES := by
  unfold handle_chat_message
  repeat' (first | split | dsimp only)
  all_goals
    first
      | exact h
      | (rw [chatRecallPhase_thread]; exact h)
      | exact chatFinishTurn_thread_le _ _ _ _

/-- Concrete chat state over the cap boundary: thread already at a cap of
2 with two messages. -/
def cappedState : ChatState where
  mcp_connections := []
  conversation_thread := [.userMsg "hi".data, .assistantMsg "ok".data]
  logs := []
  effects := []
  personaName := "memini".data
  persona := "You are memini.".data

/-- Environment with a 2-message cap whose LLM reply forces a trim. -/
def cappedEnv : ChatEnv where
  keyResult := .ok "k".data
  focusResult := .ok ()
  reminisceResult := .ok []
  refreshTools := fun _ => .ok []
  respond := fun _ => .ok ⟨[.textItem "fine".data]⟩
  spawnAgentOutput := fun _ => []
  mcpToolResult := fun _ => .ok "null".data
  saveThreadResult := .ok ()
  commitResult := .ok ()
  MAX_THREAD_MESSAGES := 2

/-- Witness for C9 at the concrete capped state and environment. -/
theorem chat_turn_thread_capped_witness :
    (handle_chat_message cappedEnv cappedState "ping".data
        false).conversation_thread.length ≤ cappedEnv.MAX_THREAD_MESSAGES :=
  chat_turn_thread_capped cappedEnv cappedState "ping".data false (by decide)

-- ── C1: built-in tools in the chat tool set ──────────────────────────

/-- C1 (amended): whenever tool resolution succeeds, the tool set a chat
turn hands to the language model contains the built-in `spawn_agent`
tool, regardless of how many tool-server connections are open.  (The
spec also promises a built-in `collect_results` tool; the code injects
only `spawn_agent` — see the counterexample.) -/
theorem chat_turn_tool_set_contains_spawn_agent (env : ChatEnv)
    (conns : List McpConnection) (require_mcp : Bool)
    (ts : List OpenAiToolDef)
    (h : chatTurnToolSet env conns require_mcp = .ok ts) :
    spawn_agent_tool ∈ ts := by
  unfold chatTurnToolSet at h
  cases hres : (openai_tools_for_mcp env conns require_mcp).result with
  | error e => rw [hres] at h; simp [Except.map] at h
  | ok t =>
      rw [hres] at h
      simp only [Except.map, Except.ok.injEq] at h
      subst h
      simp [injectBuiltinTools]

/-- Witness for the amended C1 with zero open connections. -/
theorem chat_turn_tool_set_contains_spawn_agent_witness :
    spawn_agent_tool ∈ ([spawn_agent_tool] : List OpenAiToolDef) :=
  chat_turn_tool_set_contains_spawn_agent cappedEnv [] false
    [spawn_agent_tool] rfl

/-- C1 counterexample: with zero open tool-server connections the chat
turn resolves the tool set to exactly `[spawn_agent]` — no tool named
`collect_results` is handed to the model. -/
theorem chat_turn_tool_set_counterexample :
    chatTurnToolSet cappedEnv [] false = .ok [spawn_agent_tool] ∧
      (([spawn_agent_tool] : List OpenAiToolDef).all
        fun t => !(t.name == "collect_results".data)) = true :=
  ⟨rfl, by decide⟩

-- ── C5: failure isolation in a chat turn ─────────────────────────────

theorem chatRecallPhase_conns (env : ChatEnv) (st : ChatState) (message : Str) :
    (chatRecallPhase env st message).1.mcp_connections = st.mcp_connections := by
  unfold chatRecallPhase
  cases env.reminisceResult <;> dsimp only <;> split <;> rfl

theorem chatRecallPhase_recall_error (env : ChatEnv) (st : ChatState)
    (message e : Str) (h : env.reminisceResult = .error e) :
    (LogLevel.warn, LogMsg.riceRecallFailed e)
        ∈ (chatRecallPhase env st message).1.logs
      ∧ (chatRecallPhase env st message).2 = [] := by
  unfold chatRecallPhase
  rw [h]
  dsimp only
  simp

theorem chatFinishTurn_saved_mem (env : ChatEnv) (st : ChatState)
    (message output_text : Str) :
    ∃ th, ChatEffect.savedThread th
      ∈ (chatFinishTurn env st message output_text).effects := by
  unfold chatFinishTurn
  repeat' (first | split | dsimp only)
  all_goals
    exact ⟨_, List.mem_append_left _
      (List.mem_append_right _ (List.mem_singleton.mpr rfl))⟩

theorem chatFinishTurn_committed_mem (env : ChatEnv) (st : ChatState)
    (message output_text : Str) :
    ChatEffect.committedTrace message output_text "chat".data
      ∈ (chatFinishTurn env st message output_text).effects := by
  unfold chatFinishTurn
  repeat' (first | split | dsimp only)
  all_goals simp

theorem chatFinishTurn_logs_mono (env : ChatEnv) (st : ChatState)
    (message output_text : Str) (x : LogEntry) (h : x ∈ st.logs) :
    x ∈ (chatFinishTurn env st message output_text).logs := by
  unfold chatFinishTurn
  repeat' (first | split | dsimp only)
  all_goals simp [h]

theorem chatFinishTurn_save_error_log (env : ChatEnv) (st : ChatState)
    (message output_text e : Str) (h : env.saveThreadResult = .error e) :
    (LogLevel.warn, LogMsg.threadSaveFailed e)
      ∈ (chatFinishTurn env st message output_text).logs := by
  unfold chatFinishTurn
  rw [h]
  repeat' (first | split | dsimp only)
  all_goals simp_all

theorem chatFinishTurn_commit_error_log (env : ChatEnv) (st : ChatState)
    (message output_text e : Str) (h : env.commitResult = .error e) :
    (LogLevel.warn, LogMsg.riceCommitFailed e)
      ∈ (chatFinishTurn env st message output_text).logs := by
  unfold chatFinishTurn
  rw [h]
  repeat' (first | split | dsimp only)
  all_goals simp_all

theorem refreshFold_effects_shape (env : ChatEnv) (conns : List McpConnection) :
    ∀ (acc : List McpConnection × List LogEntry × List ChatEffect)
      (x : ChatEffect), x ∈ (conns.foldl (refreshStep env) acc).2.2 →
        x ∈ acc.2.2 ∨ ∃ id, x = ChatEffect.refreshedTools id := by
  induction conns with
  | nil => intro acc x h; exact Or.inl h
  | cons c rest ih =>
      intro acc x h
      rw [List.foldl_cons] at h
      rcases ih (refreshStep env acc c) x h with h' | h'
      · unfold refreshStep at h'
        split at h'
        · split at h'
          · rcases List.mem_append.mp h' with h'' | h''
            · exact Or.inl h''
            · exact Or.inr ⟨_, List.mem_singleton.mp h''⟩
          · rcases List.mem_append.mp h' with h'' | h''
            · exact Or.inl h''
            · exact Or.inr ⟨_, List.mem_singleton.mp h''⟩
        · exact Or.inl h'
      · exact Or.inr h'

theorem refreshFold_logs_shape (env : ChatEnv) (conns : List McpConnection) :
    ∀ (acc : List McpConnection × List LogEntry × List ChatEffect)
      (x : LogEntry), x ∈ (conns.foldl (refreshStep env) acc).2.1 →
        x ∈ acc.2.1 ∨
          ∃ id e, x = (LogLevel.warn, LogMsg.mcpToolsRefreshFailed id e) := by
  induction conns with
  | nil => intro acc x h; exact Or.inl h
  | cons c rest ih =>
      intro acc x h
      rw [List.foldl_cons] at h
      rcases ih (refreshStep env acc c) x h with h' | h'
      · unfold refreshStep at h'
        split at h'
        · split at h'
          · exact Or.inl h'
          · rcases List.mem_append.mp h' with h'' | h''
            · exact Or.inl h''
            · exact Or.inr ⟨_, _, List.mem_singleton.mp h''⟩
        · exact Or.inl h'
      · exact Or.inr h'

theorem openai_tools_for_mcp_effects_shape (env : ChatEnv)
    (conns : List McpConnection) (require_mcp : Bool) (x : ChatEffect)
    (h : x ∈ (openai_tools_for_mcp env conns require_mcp).effects) :
    ∃ id, x = ChatEffect.refreshedTools id := by
  unfold openai_tools_for_mcp refreshConnections at h
  repeat' (first | split at h | dsimp only at h)
  all_goals
    first
      | exact absurd h (List.not_mem_nil x)
      | (rcases refreshFold_effects_shape env conns ([], [], []) x h with h' | h'
         · exact absurd h' (List.not_mem_nil x)
         · exact h')

theorem openai_tools_for_mcp_logs_shape (env : ChatEnv)
    (conns : List McpConnection) (require_mcp : Bool) (x : LogEntry)
    (h : x ∈ (openai_tools_for_mcp env conns require_mcp).logs) :
    ∃ id e, x = (LogLevel.warn, LogMsg.mcpToolsRefreshFailed id e) := by
  unfold openai_tools_for_mcp refreshConnections at h
  repeat' (first | split at h | dsimp only at h)
  all_goals
    first
      | exact absurd h (List.not_mem_nil x)
      | (rcases refreshFold_logs_shape env conns ([], [], []) x h with h' | h'
         · exact absurd h' (List.not_mem_nil x)
         · exact h')

theorem chatRecallPhase_effects_shape (env : ChatEnv) (st : ChatState)
    (message : Str) (x : ChatEffect)
    (h : x ∈ (chatRecallPhase env st message).1.effects) :
    x ∈ st.effects ∨ x = ChatEffect.focused message ∨
      ∃ ms, x = ChatEffect.recalled ms := by
  unfold chatRecallPhase at h
  cases henv : env.reminisceResult <;> rw [henv] at h <;> dsimp only at h <;>
    split at h <;>
    (simp only [List.mem_append, List.mem_singleton] at h; tauto)

theorem chatRecallPhase_logs_shape (env : ChatEnv) (st : ChatState)
    (message : Str) (x : LogEntry)
    (h : x ∈ (chatRecallPhase env st message).1.logs) :
    x ∈ st.logs ∨ (∃ e, x = (LogLevel.warn, LogMsg.riceFocusFailed e)) ∨
      (∃ e, x = (LogLevel.warn, LogMsg.riceRecallFailed e)) ∨
      ∃ n, x = (LogLevel.info, LogMsg.riceRecalled n) := by
  unfold chatRecallPhase at h
  cases henv : env.reminisceResult <;> rw [henv] at h <;> dsimp only at h <;>
    split at h <;>
    (cases henv2 : env.focusResult <;> rw [henv2] at h <;> dsimp only at h <;>
      (simp only [List.mem_append, List.mem_singleton] at h; tauto))

theorem handle_chat_message_ok_shape (env : ChatEnv) (st : ChatState)
    (message : Str) (require_mcp : Bool) (k : Str)
    (tools0 : Option (List OpenAiToolDef)) (r : LlmResponse)
    (hkey : env.keyResult = .ok k)
    (hguard : (require_mcp && st.mcp_connections.isEmpty) = false)
    (htools : (openai_tools_for_mcp env st.mcp_connections require_mcp).result
      = .ok tools0)
    (hresp : env.respond 0 = .ok r) :
    ∃ stMid outT,
      handle_chat_message env st message require_mcp
          = chatFinishTurn env stMid message outT
        ∧ (∀ x ∈ (chatRecallPhase env st message).1.logs, x ∈ stMid.logs) := by
  unfold handle_chat_message
  rw [hkey]
  simp only [hguard, Bool.false_eq_true, if_false]
  rw [chatRecallPhase_conns, htools]
  dsimp only
  rw [hresp]
  dsimp only
  refine ⟨_, _, rfl, ?_⟩
  intro x hx
  simp [hx]

theorem handle_chat_message_llm_error_shape (env : ChatEnv) (st : ChatState)
    (message : Str) (require_mcp : Bool) (k : Str)
    (tools0 : Option (List OpenAiToolDef)) (e : Str)
    (hkey : env.keyResult = .ok k)
    (hguard : (require_mcp && st.mcp_connections.isEmpty) = false)
    (htools : (openai_tools_for_mcp env st.mcp_connections require_mcp).result
      = .ok tools0)
    (hresp : env.respond 0 = .error e) :
    handle_chat_message env st message require_mcp
      = { (chatRecallPhase env st message).1 with
          mcp_connections :=
            (openai_tools_for_mcp env st.mcp_connections require_mcp).conns
          logs := ((chatRecallPhase env st message).1.logs
              ++ (openai_tools_for_mcp env st.mcp_connections require_mcp).logs)
            ++ [(.error, .openaiRequestFailed e)]
          effects := ((chatRecallPhase env st message).1.effects
              ++ (openai_tools_for_mcp env st.mcp_connections require_mcp).effects)
            ++ [.llmCalled 0 (injectBuiltinTools tools0)] } := by
  unfold handle_chat_message
  rw [hkey]
  simp only [hguard, Bool.false_eq_true, if_false]
  rw [chatRecallPhase_conns, htools]
  dsimp only
  rw [hresp]

/-- C5: failure isolation within a chat turn.  With the key present and
the connection guard passed: (a) a memory-recall failure is logged as a
warning, yields an empty memory list, and the turn still persists the
thread and commits a trace; (b) a thread-persist failure is logged as a
warning and the trace commit still happens; (c) a trace-commit failure is
logged as a warning and the thread was still persisted; (d) a failure of
the initial LLM request logs an error and aborts the turn — the thread
is untouched and neither a thread persist nor a trace commit happens. -/
theorem chat_turn_failure_isolation (env : ChatEnv) (st : ChatState)
    (message : Str) (require_mcp : Bool) (k : Str)
    (tools0 : Option (List OpenAiToolDef))
    (hkey : env.keyResult = .ok k)
    (hguard : (require_mcp && st.mcp_connections.isEmpty) = false)
    (htools : (openai_tools_for_mcp env st.mcp_connections require_mcp).result
      = .ok tools0)
    (heff : st.effects = []) :
    (∀ e r, env.reminisceResult = .error e → env.respond 0 = .ok r →
      (LogLevel.warn, LogMsg.riceRecallFailed e)
          ∈ (handle_chat_message env st message require_mcp).logs
        ∧ (chatRecallPhase env st message).2 = []
        ∧ (∃ th, ChatEffect.savedThread th
            ∈ (handle_chat_message env st message require_mcp).effects)
        ∧ (∃ o, ChatEffect.committedTrace message o "chat".data
            ∈ (handle_chat_message env st message require_mcp).effects))
    ∧ (∀ e r, env.respond 0 = .ok r → env.saveThreadResult = .error e →
        (LogLevel.warn, LogMsg.threadSaveFailed e)
            ∈ (handle_chat_message env st message require_mcp).logs
          ∧ ∃ o, ChatEffect.committedTrace message o "chat".data
              ∈ (handle_chat_message env st message require_mcp).effects)
    ∧ (∀ e r, env.respond 0 = .ok r → env.commitResult = .error e →
        (LogLevel.warn, LogMsg.riceCommitFailed e)
            ∈ (handle_chat_message env st message require_mcp).logs
          ∧ ∃ th, ChatEffect.savedThread th
              ∈ (handle_chat_message env st message require_mcp).effects)
    ∧ (∀ e, env.respond 0 = .error e →
        (LogLevel.error, LogMsg.openaiRequestFailed e)
            ∈ (handle_chat_message env st message require_mcp).logs
          ∧ (handle_chat_message env st message require_mcp).conversation_thread
            = st.conversation_thread
          ∧ (∀ th, ChatEffect.savedThread th
              ∉ (handle_chat_message env st message require_mcp).effects)
          ∧ (∀ i o a, ChatEffect.committedTrace i o a
              ∉ (handle_chat_message env st message require_mcp).effects)) := by
  refine ⟨?_, ?_, ?_, ?_⟩
  · intro e r herr hresp
    rcases handle_chat_message_ok_shape env st message require_mcp k tools0 r
      hkey hguard htools hresp with ⟨stMid, outT, heq, hmono⟩
    rw [heq]
    rcases chatRecallPhase_recall_error env st message e herr with ⟨hwarn, hempty⟩
    exact ⟨chatFinishTurn_logs_mono env stMid message outT _ (hmono _ hwarn),
      hempty,
      chatFinishTurn_saved_mem env stMid message outT,
      ⟨outT, chatFinishTurn_committed_mem env stMid message outT⟩⟩
  · intro e r hresp hsave
    rcases handle_chat_message_ok_shape env st message require_mcp k tools0 r
      hkey hguard htools hresp with ⟨stMid, outT, heq, hmono⟩
    rw [heq]
    exact ⟨chatFinishTurn_save_error_log env stMid message outT e hsave,
      ⟨outT, chatFinishTurn_committed_mem env stMid message outT⟩⟩
  · intro e r hresp hcommit
    rcases handle_chat_message_ok_shape env st message require_mcp k tools0 r
      hkey hguard htools hresp with ⟨stMid, outT, heq, hmono⟩
    rw [heq]
    exact ⟨chatFinishTurn_commit_error_log env stMid message outT e hcommit,
      chatFinishTurn_saved_mem env stMid message outT⟩
  · intro e hresp
    rw [handle_chat_message_llm_error_shape env st message require_mcp k tools0 e
      hkey hguard htools hresp]
    refine ⟨by simp, by rw [chatRecallPhase_thread], ?_, ?_⟩
    · intro th hmem
      simp only [List.mem_append, List.mem_singleton] at hmem
      rcases hmem with (hpre | htr) | hlast
      · rcases chatRecallPhase_effects_shape env st message _ hpre with
          hst | hfoc | ⟨ms, hrec⟩
        · rw [heff] at hst; exact absurd hst (List.not_mem_nil _)
        · exact ChatEffect.noConfusion hfoc
        · exact ChatEffect.noConfusion hrec
      · rcases openai_tools_for_mcp_effects_shape env st.mcp_connections
          require_mcp _ htr with ⟨id, hr⟩
        exact ChatEffect.noConfusion hr
      · exact ChatEffect.noConfusion hlast
    · intro i o a hmem
      simp only [List.mem_append, List.mem_singleton] at hmem
      rcases hmem with (hpre | htr) | hlast
      · rcases chatRecallPhase_effects_shape env st message _ hpre with
          hst | hfoc | ⟨ms, hrec⟩
        · rw [heff] at hst; exact absurd hst (List.not_mem_nil _)
        · exact ChatEffect.noConfusion hfoc
        · exact ChatEffect.noConfusion hrec
      · rcases openai_tools_for_mcp_effects_shape env st.mcp_connections
          require_mcp _ htr with ⟨id, hr⟩
        exact ChatEffect.noConfusion hr
      · exact ChatEffect.noConfusion hlast

/-- Environment whose memory store fails on recall, thread persist and
trace commit, while the LLM answers normally. -/
def failingStoreEnv : ChatEnv where
  keyResult := .ok "k".data
  focusResult := .ok ()
  reminisceResult := .error "down".data
  refreshTools := fun _ => .ok []
  respond := fun _ => .ok ⟨[.textItem "fine".data]⟩
  spawnAgentOutput := fun _ => []
  mcpToolResult := fun _ => .ok "null".data
  saveThreadResult := .error "disk".data
  commitResult := .error "commit".data
  MAX_THREAD_MESSAGES := 40

/-- Environment whose initial LLM request fails. -/
def llmDownEnv : ChatEnv where
  keyResult := .ok "k".data
  focusResult := .ok ()
  reminisceResult := .ok []
  refreshTools := fun _ => .ok []
  respond := fun _ => .error "llm".data
  spawnAgentOutput := fun _ => []
  mcpToolResult := fun _ => .ok "null".data
  saveThreadResult := .ok ()
  commitResult := .ok ()
  MAX_THREAD_MESSAGES := 40

/-- Witness for C5 at the two concrete environments: store failures are
warned and the turn completes; an initial LLM failure aborts the turn. -/
theorem chat_turn_failure_isolation_witness :
    ((LogLevel.warn, LogMsg.riceRecallFailed "down".data)
        ∈ (handle_chat_message failingStoreEnv cappedState "ping".data false).logs)
      ∧ (∃ th, ChatEffect.savedThread th
          ∈ (handle_chat_message failingStoreEnv cappedState "ping".data false).effects)
      ∧ ((LogLevel.warn, LogMsg.threadSaveFailed "disk".data)
          ∈ (handle_chat_message failingStoreEnv cappedState "ping".data false).logs)
      ∧ ((LogLevel.warn, LogMsg.riceCommitFailed "commit".data)
          ∈ (handle_chat_message failingStoreEnv cappedState "ping".data false).logs)
      ∧ ((LogLevel.error, LogMsg.openaiRequestFailed "llm".data)
          ∈ (handle_chat_message llmDownEnv cappedState "ping".data false).logs)
      ∧ (handle_chat_message llmDownEnv cappedState "ping".data
          false).conversation_thread = cappedState.conversation_thread
      ∧ (∀ th, ChatEffect.savedThread th
          ∉ (handle_chat_message llmDownEnv cappedState "ping".data false).effects) := by
  have hFail := chat_turn_failure_isolation failingStoreEnv cappedState
    "ping".data false "k".data none rfl rfl rfl rfl
  have hDown := chat_turn_failure_isolation llmDownEnv cappedState
    "ping".data false "k".data none rfl rfl rfl rfl
  have hA := hFail.1 "down".data ⟨[.textItem "fine".data]⟩ rfl rfl
  have hB := hFail.2.1 "disk".data ⟨[.textItem "fine".data]⟩ rfl rfl
  have hC := hFail.2.2.1 "commit".data ⟨[.textItem "fine".data]⟩ rfl rfl
  have hD := hDown.2.2.2 "llm".data rfl
  exact ⟨hA.1, hA.2.2.1, hB.1, hC.1, hD.1, hD.2.1, hD.2.2.1⟩

-- ── src/app/commands/daemons.rs model ────────────────────────────────

/-- `DaemonTaskDef` from the absent src/app/daemon.rs; its field shape is
fixed by the literal constructions in src/app/commands/daemons.rs. -/
structure DaemonTaskDef where
  name : Str
  persona : Str
  prompt : Str
  interval_secs : Nat
  trigger_events : List Str
  trigger_variables : List Str
  tools : List Str
  paused : Bool
  deriving Repr, DecidableEq

/-- `DaemonHandle`: the live handle of a started task (the abort control
and wake signal are runtime objects; aborts are recorded as effects).
The `defn` field is the handle's `def` field (a Lean keyword). -/
structure DaemonHandle where
  defn : DaemonTaskDef
  deriving Repr, DecidableEq

/-- Log lines of the daemon command handlers, one constructor per call
site. -/
inductive DaemonLogMsg
  | alreadyRunning (name : Str)
  | taskStopped (name : Str)
  | noRunningDaemon (name : Str)
  | unknownDaemonTask (name : Str)
  | skippedRecipeConflict (name : Str)
  | autoStarted (n : Nat)
  | stoppedBuiltin (name : Str)
  | builtinUseStop (name : Str)
  | removedRecipe (name : Str)
  | stoppedBeforeRemoval (name : Str)
  | stoppedRuntimeOnly (name : Str)
  | removeRecipeFailed (name : Str) (e : Str)
  deriving Repr, DecidableEq

abbrev DaemonLogEntry := LogLevel × DaemonLogMsg

/-- External actions of the daemon command handlers. -/
inductive DaemonEffect
  | spawnedTask (d : DaemonTaskDef)
  | abortedHandle (name : Str)
  | removedRecipeFile (name : Str)
  deriving Repr, DecidableEq

/-- The portion of `App` state the daemon commands touch.  `recipeFiles`
models the recipe directory as the set of sanitized recipe names present
on disk. -/
structure DaemonState where
  daemon_handles : List DaemonHandle
  recipeFiles : List Str
  logs : List DaemonLogEntry
  effects : List DaemonEffect
  deriving Repr, DecidableEq

/-- Modelled from the spec: `spawn_daemon_task` from the absent
src/app/daemon.rs — registers a `DaemonHandle` for the definition and
starts its background run. -/
def spawn_daemon_task (st : DaemonState) (d : DaemonTaskDef) : DaemonState :=
  { st with
    daemon_handles := st.daemon_handles ++ [⟨d⟩]
    effects := st.effects ++ [.spawnedTask d] }

/-- `App::daemon_def_from_recipe` from src/app/commands/daemons.rs. -/
def daemon_def_from_recipe (recipe : AgentRecipe) (paused : Bool) :
    DaemonTaskDef where
  name := recipe.name
  persona := recipe.persona
  prompt := recipe.instructions
  interval_secs := recipe.interval_secs
  trigger_events := recipe.trigger_events
  trigger_variables := recipe.trigger_variables
  tools := recipe.tools
  paused := paused

/-- `iter().position(...)` followed by `remove(pos)` on the handle list:
the first handle whose name matches case-insensitively, and the list
without it. -/
def removeFirstHandle (handles : List DaemonHandle) (name : Str) :
    Option (DaemonHandle × List DaemonHandle) :=
  match handles with
  | [] => none
  | h :: rest =>
      if eqIgnoreAsciiCase h.defn.name name then some (h, rest)
      else
        match removeFirstHandle rest name with
        | some (x, rest') => some (x, h :: rest')
        | none => none

/-- `App::start_daemon` from src/app/commands/daemons.rs.  The built-in
task list (`daemon::builtin_tasks()`, absent src/app/daemon.rs) and the
loaded recipes are passed as parameters. -/
def start_daemon (builtins : List DaemonTaskDef) (recipes : List AgentRecipe)
    (st : DaemonState) (name : Str) : DaemonState :=
  if st.daemon_handles.any fun h => eqIgnoreAsciiCase h.defn.name name then
    { st with logs := st.logs ++ [(.info, .alreadyRunning name)] }
  else
    match builtins.find? fun task => eqIgnoreAsciiCase task.name name with
    | some d => spawn_daemon_task st { d with paused := false }
    | none =>
        match recipes.find? fun recipe => eqIgnoreAsciiCase recipe.name name with
        | some recipe => spawn_daemon_task st (daemon_def_from_recipe recipe false)
        | none => { st with logs := st.logs ++ [(.warn, .unknownDaemonTask name)] }

/-- `App::stop_daemon` from src/app/commands/daemons.rs. -/
def stop_daemon (st : DaemonState) (name : Str) : DaemonState :=
  match removeFirstHandle st.daemon_handles name with
  | some (h, rest) =>
      { st with
        daemon_handles := rest
        effects := st.effects ++ [.abortedHandle h.defn.name]
        logs := st.logs ++ [(.info, .taskStopped h.defn.name)] }
  | none => { st with logs := st.logs ++ [(.warn, .noRunningDaemon name)] }

/-- One loop iteration of `App::autostart_daemon_recipes`. -/
def autostartStep (builtins : List DaemonTaskDef)
    (acc : DaemonState × Nat) (recipe : AgentRecipe) : DaemonState × Nat :=
  let st := acc.1
  if !recipe.auto_start then acc
  else if builtins.any fun task => eqIgnoreAsciiCase task.name recipe.name then
    ({ st with logs := st.logs ++ [(.warn, .skippedRecipeConflict recipe.name)] },
      acc.2)
  else if st.daemon_handles.any fun h =>
      eqIgnoreAsciiCase h.defn.name recipe.name then
    acc
  else (spawn_daemon_task st (daemon_def_from_recipe recipe false), acc.2 + 1)

/-- `App::autostart_daemon_recipes` from src/app/commands/daemons.rs. -/
def autostart_daemon_recipes (builtins : List DaemonTaskDef)
    (recipes : List AgentRecipe) (st : DaemonState) : DaemonState :=
  let result := recipes.foldl (autostartStep builtins) (st, 0)
  if result.2 > 0 then
    { result.1 with logs := result.1.logs ++ [(.info, .autoStarted result.2)] }
  else result.1

-- ── C6: case-insensitive name-conflict policy ────────────────────────

theorem autostartStep_handles_mono (builtins : List DaemonTaskDef)
    (acc : DaemonState × Nat) (recipe : AgentRecipe) (h : DaemonHandle)
    (hmem : h ∈ acc.1.daemon_handles) :
    h ∈ (autostartStep builtins acc recipe).1.daemon_handles := by
  unfold autostartStep spawn_daemon_task
  repeat' (first | split | dsimp only)
  all_goals simp [hmem]

theorem autostartFold_spawned_shape (builtins : List DaemonTaskDef)
    (recipes : List AgentRecipe) :
    ∀ (acc : DaemonState × Nat) (d : DaemonTaskDef),
      DaemonEffect.spawnedTask d
          ∈ ((recipes.foldl (autostartStep builtins) acc).1).effects →
        DaemonEffect.spawnedTask d ∈ acc.1.effects ∨
          ((∀ b ∈ builtins, eqIgnoreAsciiCase b.name d.name = false) ∧
            (∀ h ∈ acc.1.daemon_handles,
              eqIgnoreAsciiCase h.defn.name d.name = false)) := by
  induction recipes with
  | nil => intro acc d h; exact Or.inl h
  | cons recipe rest ih =>
      intro acc d h
      rw [List.foldl_cons] at h
      rcases ih (autostartStep builtins acc recipe) d h with h' | ⟨hb, hh⟩
      · unfold autostartStep spawn_daemon_task at h'
        split at h'
        · exact Or.inl h'
        · split at h'
          · exact Or.inl h'
          · dsimp only at h'
            split at h'
            · exact Or.inl h'
            · rcases List.mem_append.mp h' with h'' | h''
              · exact Or.inl h''
              · -- the spawned definition is the one from this recipe
                have hd : d = daemon_def_from_recipe recipe false :=
                  DaemonEffect.spawnedTask.inj (List.mem_singleton.mp h'')
                subst hd
                rename_i hnotb hnoth
                refine Or.inr ⟨?_, ?_⟩
                · intro b hbmem
                  by_contra hcase
                  exact hnotb (List.any_eq_true.mpr
                    ⟨b, hbmem, by simpa [daemon_def_from_recipe] using hcase⟩)
                · intro hh hhmem
                  by_contra hcase
                  exact hnoth (List.any_eq_true.mpr
                    ⟨hh, hhmem, by simpa [daemon_def_from_recipe] using hcase⟩)
      · exact Or.inr ⟨hb, fun hh' hmem =>
          hh _ (autostartStep_handles_mono builtins acc recipe hh' hmem)⟩

/-- C6 (amended): starting a task whose name matches a running handle up
to ASCII case is rejected — no handle is added, no task is spawned, and
an informational "already running" message (not a warning) is logged;
autostart never spawns a recipe whose name collides case-insensitively
with a built-in task or with an already-running handle. -/
theorem daemon_name_conflicts_rejected (builtins : List DaemonTaskDef)
    (recipes : List AgentRecipe) (st : DaemonState) (name : Str)
    (handle : DaemonHandle) (hmem : handle ∈ st.daemon_handles)
    (hcase : eqIgnoreAsciiCase handle.defn.name name = true) :
    ((start_daemon builtins recipes st name).daemon_handles = st.daemon_handles
        ∧ (start_daemon builtins recipes st name).effects = st.effects
        ∧ (start_daemon builtins recipes st name).logs
          = st.logs ++ [(.info, .alreadyRunning name)])
      ∧ (∀ d, DaemonEffect.spawnedTask d
            ∈ (autostart_daemon_recipes builtins recipes st).effects →
          DaemonEffect.spawnedTask d ∈ st.effects ∨
            ((∀ b ∈ builtins, eqIgnoreAsciiCase b.name d.name = false) ∧
              (∀ h ∈ st.daemon_handles,
                eqIgnoreAsciiCase h.defn.name d.name = false))) := by
  constructor
  · have hany : (st.daemon_handles.any fun h =>
        eqIgnoreAsciiCase h.defn.name name) = true :=
      List.any_eq_true.mpr ⟨handle, hmem, hcase⟩
    unfold start_daemon
    rw [hany]
    exact ⟨rfl, rfl, rfl⟩
  · intro d h
    unfold autostart_daemon_recipes at h
    have h' : DaemonEffect.spawnedTask d
        ∈ ((recipes.foldl (autostartStep builtins) (st, 0)).1).effects := by
      dsimp only at h
      split at h
      · simpa using h
      · exact h
    exact autostartFold_spawned_shape builtins recipes (st, 0) d h'

/-- Built-in task used by the concrete daemon examples. -/
def demoBuiltinTask : DaemonTaskDef where
  name := "repo-watch".data
  persona := "You are a repository watchdog agent.".data
  prompt := "Inspect the repository.".data
  interval_secs := 1800
  trigger_events := []
  trigger_variables := []
  tools := []
  paused := false

/-- Daemon state with one running handle named `Foo`. -/
def demoDaemonState : DaemonState where
  daemon_handles :=
    [⟨{ demoBuiltinTask with name := "Foo".data, paused := false }⟩]
  recipeFiles := []
  logs := []
  effects := []

/-- Witness for the amended C6: starting `foo` while `Foo` runs changes
nothing and logs the informational rejection. -/
theorem daemon_name_conflicts_rejected_witness :
    (start_daemon [] [] demoDaemonState "foo".data).daemon_handles
        = demoDaemonState.daemon_handles
      ∧ (start_daemon [] [] demoDaemonState "foo".data).logs
        = demoDaemonState.logs
          ++ [(.info, .alreadyRunning "foo".data)] := by
  have h := daemon_name_conflicts_rejected [] [] demoDaemonState "foo".data
    ⟨{ demoBuiltinTask with name := "Foo".data, paused := false }⟩
    (by decide) (by decide)
  exact ⟨h.1.1, h.1.2.2⟩

/-- C6 counterexample: the rejection of a case-colliding second start is
logged at Info level, not as a warning — the log gained by the rejected
start contains no warning entry. -/
theorem daemon_name_conflict_counterexample :
    (start_daemon [] [] demoDaemonState "foo".data).daemon_handles
        = demoDaemonState.daemon_handles
      ∧ (start_daemon [] [] demoDaemonState "foo".data).logs
        = [(.info, .alreadyRunning "foo".data)]
      ∧ (∀ entry ∈ (start_daemon [] [] demoDaemonState "foo".data).logs,
          entry.1 ≠ LogLevel.warn) := by
  refine ⟨by decide, by decide, ?_⟩
  decide

-- ── C8: built-in tasks are stoppable but not removable ───────────────

/-- Rust `str::trim_matches(c)` on the character-list model. -/
def trimMatchesChar (c : Char) (s : Str) : Str :=
  ((s.dropWhile fun ch => ch == c).reverse.dropWhile fun ch => ch == c).reverse

/-- `sanitize_name` from src/app/agent_recipes.rs: trim, ASCII-lowercase,
keep alphanumerics, `-` and `_` (everything else becomes `-`), trim `-`
from both ends; an empty result is an error. -/
def sanitize_name (raw : Str) : Except Str Str :=
  let candidate :=
    trimMatchesChar '-'
      ((lowerStr (trimStr raw)).map fun ch =>
        if ch.isAlphanum || ch == '-' || ch == '_' then ch else '-')
  if candidate.isEmpty then .error "name cannot be empty".data
  else .ok candidate

/-- `remove_recipe_file` from src/app/agent_recipes.rs over the modelled
recipe directory (a list of sanitized recipe names): `None` when no such
file exists, otherwise the removed name and the directory without it. -/
def remove_recipe_file (files : List Str) (name : Str) :
    Except Str (Option Str × List Str) :=
  match sanitize_name name with
  | .error e => .error e
  | .ok n =>
      if files.contains n then .ok (some n, files.erase n)
      else .ok (none, files)

/-- `App::remove_daemon_task` from src/app/commands/daemons.rs: stop a
matching running handle first; a built-in name is only reported (the
recipe directory is never touched); otherwise the recipe file is
removed. -/
def remove_daemon_task (builtins : List DaemonTaskDef) (st : DaemonState)
    (name : Str) : DaemonState :=
  let stopStep : Bool × DaemonState :=
    match removeFirstHandle st.daemon_handles name with
    | some (h, rest) =>
        (true,
          { st with
            daemon_handles := rest
            effects := st.effects ++ [.abortedHandle h.defn.name] })
    | none => (false, st)
  let stopped := stopStep.1
  let st := stopStep.2
  if builtins.any fun task => eqIgnoreAsciiCase task.name name then
    if stopped then
      { st with logs := st.logs ++ [(.info, .stoppedBuiltin name)] }
    else { st with logs := st.logs ++ [(.warn, .builtinUseStop name)] }
  else
    match remove_recipe_file st.recipeFiles name with
    | .ok (some path, files') =>
        { st with
          recipeFiles := files'
          effects := st.effects ++ [.removedRecipeFile path]
          logs := st.logs ++ [(.info, .removedRecipe path)]
            ++ (if stopped then [(.info, .stoppedBeforeRemoval name)] else []) }
    | .ok (none, _) =>
        if stopped then
          { st with logs := st.logs ++ [(.info, .stoppedRuntimeOnly name)] }
        else { st with logs := st.logs ++ [(.warn, .unknownDaemonTask name)] }
    | .error e =>
        { st with logs := st.logs ++ [(.error, .removeRecipeFailed name e)] }

/-- C8: for a built-in task name, stopping only removes and aborts the
matching running handle (the recipe directory is untouched, and the
built-in definition can be restarted afterwards), and removing is
rejected: the recipe directory is never touched and at most the running
handle is halted. -/
theorem builtin_stop_remove_frame (builtins : List DaemonTaskDef)
    (recipes : List AgentRecipe) (st : DaemonState) (name : Str) :
    ((stop_daemon st name).recipeFiles = st.recipeFiles
      ∧ (∀ h rest, removeFirstHandle st.daemon_handles name = some (h, rest) →
          (stop_daemon st name).daemon_handles = rest))
    ∧ ((builtins.any fun task => eqIgnoreAsciiCase task.name name) = true →
        (remove_daemon_task builtins st name).recipeFiles = st.recipeFiles
        ∧ ((remove_daemon_task builtins st name).effects = st.effects
              ∧ (remove_daemon_task builtins st name).daemon_handles
                = st.daemon_handles
            ∨ ∃ h rest,
                removeFirstHandle st.daemon_handles name = some (h, rest)
                ∧ (remove_daemon_task builtins st name).effects
                  = st.effects ++ [.abortedHandle h.defn.name]
                ∧ (remove_daemon_task builtins st name).daemon_handles = rest))
    ∧ (∀ b, (builtins.find? fun task => eqIgnoreAsciiCase task.name name)
          = some b →
        ((stop_daemon st name).daemon_handles.any fun h =>
          eqIgnoreAsciiCase h.defn.name name) = false →
        (start_daemon builtins recipes (stop_daemon st name) name).daemon_handles
          = (stop_daemon st name).daemon_handles
            ++ [⟨{ b with paused := false }⟩]) := by
  refine ⟨⟨?_, ?_⟩, ?_, ?_⟩
  · unfold stop_daemon
    cases removeFirstHandle st.daemon_handles name with
    | none => rfl
    | some p => rfl
  · intro h rest hrm
    unfold stop_daemon
    rw [hrm]
  · intro hb
    unfold remove_daemon_task
    rw [hb]
    cases hrm : removeFirstHandle st.daemon_handles name with
    | none => exact ⟨rfl, Or.inl ⟨rfl, rfl⟩⟩
    | some p =>
        cases p with
        | mk h1 rest1 => exact ⟨rfl, Or.inr ⟨h1, rest1, rfl, rfl, rfl⟩⟩
  · intro b hfind hnorun
    unfold start_daemon
    rw [hnorun, hfind]
    rfl

/-- Daemon state with the built-in `repo-watch` running and one recipe
file on disk. -/
def demoBuiltinState : DaemonState where
  daemon_handles := [⟨demoBuiltinTask⟩]
  recipeFiles := ["digest".data]
  logs := []
  effects := []

/-- Witness for C8: stopping and removing the running built-in
`repo-watch` leaves the recipe directory untouched, removes exactly its
handle, and the task can be restarted. -/
theorem builtin_stop_remove_frame_witness :
    (stop_daemon demoBuiltinState "repo-watch".data).recipeFiles
        = demoBuiltinState.recipeFiles
      ∧ (stop_daemon demoBuiltinState "repo-watch".data).daemon_handles = []
      ∧ (remove_daemon_task [demoBuiltinTask] demoBuiltinState
          "repo-watch".data).recipeFiles = demoBuiltinState.recipeFiles
      ∧ (start_daemon [demoBuiltinTask] []
            (stop_daemon demoBuiltinState "repo-watch".data)
            "repo-watch".data).daemon_handles
        = [⟨{ demoBuiltinTask with paused := false }⟩] := by
  have h := builtin_stop_remove_frame [demoBuiltinTask] [] demoBuiltinState
    "repo-watch".data
  refine ⟨h.1.1, ?_, (h.2.1 (by decide)).1, ?_⟩
  · exact h.1.2 ⟨demoBuiltinTask⟩ [] (by decide)
  · have hstart := h.2.2 demoBuiltinTask (by decide) ?_
    · rw [hstart]
      rw [h.1.2 ⟨demoBuiltinTask⟩ [] (by decide)]
      rfl
    · rw [h.1.2 ⟨demoBuiltinTask⟩ [] (by decide)]
      decide

-- ── src/app.rs OAuth manual completion model (C7) ────────────────────

/-- `PendingOAuth` from the absent src/mcp/oauth.rs; per the spec it
carries the redirect target, client credentials and the code
verifier/state nonce of the pending flow. -/
structure PendingOAuth where
  redirect_uri : Str
  client_id : Option Str
  client_secret : Option Str
  code_verifier : Str
  state_nonce : Str
  deriving Repr, DecidableEq

/-- A token-endpoint response: access token, optional refresh token,
optional negotiated client id. -/
structure TokenResponse where
  access_token : Str
  refresh_token : Option Str
  client_id : Option Str
  deriving Repr, DecidableEq

/-- Modelled from the spec: the user input to `/mcp auth-code` — either
a raw authorization code or a full redirect URL carrying the code. -/
inductive ManualAuthInput
  | rawCode (code : Str)
  | redirectUrl (code : Str) (rest : Str)
  deriving Repr, DecidableEq

/-- Modelled from the spec: the code-extraction step of
`exchange_manual_code_with_input` (absent src/mcp/oauth.rs) — the raw
code itself, or the `code` query parameter of a pasted redirect URL. -/
def extract_manual_code : ManualAuthInput → Str
  | .rawCode code => code
  | .redirectUrl code _ => code

/-- An MCP server config entry as far as the manual OAuth path reads it
(`find_by_id_or_name`, the `auth` block and its `redirect_uri`). -/
structure McpServerCfg where
  id : Str
  name : Str
  auth_redirect_uri : Option (Option Str)
  deriving Repr, DecidableEq

/-- `McpConfig::find_by_id_or_name` from the absent src/mcp/config.rs. -/
def find_by_id_or_name (cfg : List McpServerCfg) (target : Str) :
    Option McpServerCfg :=
  cfg.find? fun s => s.id == target || s.name == target

/-- Log lines of the OAuth manual-completion path. -/
inductive OAuthLogMsg
  | noPendingFlow
  | pendingMismatch (pending target : Str)
  | manualExchangeFailed (e : Str)
  | manualComplete
  | persistLocalFailed (e : Str)
  | storeVarFailed (e : Str)
  | storedToken (id : Str)
  deriving Repr, DecidableEq

/-- External actions of the OAuth manual-completion path. -/
inductive OAuthEffect
  | exchangedCode (pending : PendingOAuth) (code : Str)
  | setVariable (key : Str)
  deriving Repr, DecidableEq

/-- Oracle results for the manual-completion externals. -/
structure OAuthEnv where
  exchangeCode : PendingOAuth → Str → Except Str TokenResponse
  persistLocalResult : Except Str Unit
  riceSetResult : Str → Except Str Unit

/-- The portion of `App` state the manual OAuth path touches (the three
maps of `LocalMcpStore`, the pending flow, logs and effects). -/
structure OAuthState where
  pending_oauth : Option (Str × PendingOAuth)
  tokens : List (Str × Str)
  refresh_tokens : List (Str × Str)
  client_ids : List (Str × Str)
  logs : List (LogLevel × OAuthLogMsg)
  effects : List OAuthEffect
  deriving Repr, DecidableEq

/-- `HashMap::insert` on the association-list model. -/
def assocInsert (m : List (Str × Str)) (k v : Str) : List (Str × Str) :=
  (k, v) :: m.filter fun p => !(p.1 == k)

/-- `HashMap::get` on the association-list model. -/
def assocLookup (m : List (Str × Str)) (k : Str) : Option Str :=
  (m.find? fun p => p.1 == k).map fun p => p.2

/-- `App::store_mcp_token` from src/app.rs: local map insert, local
persist (warned on failure), Rice variable write (warned on failure). -/
def store_mcp_token (env : OAuthEnv) (st : OAuthState) (id token : Str) :
    OAuthState :=
  let st : OAuthState := { st with tokens := assocInsert st.tokens id token }
  let st : OAuthState :=
    match env.persistLocalResult with
    | .error e => { st with logs := st.logs ++ [(.warn, .persistLocalFailed e)] }
    | .ok _ => st
  let key := "mcp_token_".data ++ id
  let st : OAuthState := { st with effects := st.effects ++ [.setVariable key] }
  match env.riceSetResult key with
  | .error e => { st with logs := st.logs ++ [(.warn, .storeVarFailed e)] }
  | .ok _ => { st with logs := st.logs ++ [(.info, .storedToken id)] }

/-- `App::store_mcp_refresh_token` from src/app.rs. -/
def store_mcp_refresh_token (env : OAuthEnv) (st : OAuthState)
    (id token : Str) : OAuthState :=
  let st : OAuthState :=
    { st with refresh_tokens := assocInsert st.refresh_tokens id token }
  let st : OAuthState :=
    match env.persistLocalResult with
    | .error e => { st with logs := st.logs ++ [(.warn, .persistLocalFailed e)] }
    | .ok _ => st
  let key := "mcp_refresh_".data ++ id
  let st : OAuthState := { st with effects := st.effects ++ [.setVariable key] }
  match env.riceSetResult key with
  | .error e => { st with logs := st.logs ++ [(.warn, .storeVarFailed e)] }
  | .ok _ => st

/-- `App::store_mcp_client_id` from src/app.rs: a no-op unless the auth
block has a `redirect_uri`. -/
def store_mcp_client_id (env : OAuthEnv) (st : OAuthState)
    (id client_id : Str) (auth_redirect_uri : Option Str) : OAuthState :=
  match auth_redirect_uri with
  | none => st
  | some _ =>
      let st : OAuthState :=
        { st with client_ids := assocInsert st.client_ids id client_id }
      let st : OAuthState :=
        match env.persistLocalResult with
        | .error e =>
            { st with logs := st.logs ++ [(.warn, .persistLocalFailed e)] }
        | .ok _ => st
      let key := "mcp_client_".data ++ id
      let st : OAuthState :=
        { st with effects := st.effects ++ [.setVariable key] }
      match env.riceSetResult key with
      | .error e => { st with logs := st.logs ++ [(.warn, .storeVarFailed e)] }
      | .ok _ => st

/-- `App::complete_oauth_manual` from src/app.rs: reject when no flow is
pending or the target id differs from the pending flow's id; otherwise
extract the code, run the token exchange, and on success clear the
pending flow and store access/refresh tokens and the negotiated client
id. -/
def complete_oauth_manual (env : OAuthEnv) (cfg : List McpServerCfg)
    (st : OAuthState) (server_id : Str) (raw_input : ManualAuthInput) :
    OAuthState :=
  match st.pending_oauth with
  | none => { st with logs := st.logs ++ [(.warn, .noPendingFlow)] }
  | some (pending_id, pending) =>
      if pending_id ≠ server_id then
        { st with
          logs := st.logs ++ [(.warn, .pendingMismatch pending_id server_id)] }
      else
        let code := extract_manual_code raw_input
        let st : OAuthState :=
          { st with effects := st.effects ++ [.exchangedCode pending code] }
        match env.exchangeCode pending code with
        | .ok token =>
            let st : OAuthState := { st with pending_oauth := none }
            let st := store_mcp_token env st server_id token.access_token
            let st :=
              match token.refresh_token with
              | some refresh => store_mcp_refresh_token env st server_id refresh
              | none => st
            let st :=
              match token.client_id with
              | some client_id =>
                  match find_by_id_or_name cfg server_id with
                  | some server =>
                      match server.auth_redirect_uri with
                      | some auth =>
                          store_mcp_client_id env st server_id client_id auth
                      | none => st
                  | none => st
              | none => st
            { st with logs := st.logs ++ [(.info, .manualComplete)] }
        | .error e =>
            { st with logs := st.logs ++ [(.error, .manualExchangeFailed e)] }

-- ── C7 lemmas and theorem ────────────────────────────────────────────

theorem store_mcp_token_tokens (env : OAuthEnv) (st : OAuthState)
    (id token : Str) :
    (store_mcp_token env st id token).tokens = assocInsert st.tokens id token := by
  unfold store_mcp_token
  repeat' (first | split | dsimp only)

theorem store_mcp_refresh_token_tokens (env : OAuthEnv) (st : OAuthState)
    (id token : Str) :
    (store_mcp_refresh_token env st id token).tokens = st.tokens := by
  unfold store_mcp_refresh_token
  repeat' (first | split | dsimp only)

theorem store_mcp_client_id_tokens (env : OAuthEnv) (st : OAuthState)
    (id client_id : Str) (auth : Option Str) :
    (store_mcp_client_id env st id client_id auth).tokens = st.tokens := by
  unfold store_mcp_client_id
  repeat' (first | split | dsimp only)

theorem store_mcp_token_pending (env : OAuthEnv) (st : OAuthState)
    (id token : Str) :
    (store_mcp_token env st id token).pending_oauth = st.pending_oauth := by
  unfold store_mcp_token
  repeat' (first | split | dsimp only)

theorem store_mcp_refresh_token_pending (env : OAuthEnv) (st : OAuthState)
    (id token : Str) :
    (store_mcp_refresh_token env st id token).pending_oauth
      = st.pending_oauth := by
  unfold store_mcp_refresh_token
  repeat' (first | split | dsimp only)

theorem store_mcp_client_id_pending (env : OAuthEnv) (st : OAuthState)
    (id client_id : Str) (auth : Option Str) :
    (store_mcp_client_id env st id client_id auth).pending_oauth
      = st.pending_oauth := by
  unfold store_mcp_client_id
  repeat' (first | split | dsimp only)

theorem store_mcp_token_effects_mono (env : OAuthEnv) (st : OAuthState)
    (id token : Str) (x : OAuthEffect) (h : x ∈ st.effects) :
    x ∈ (store_mcp_token env st id token).effects := by
  unfold store_mcp_token
  repeat' (first | split | dsimp only)
  all_goals simp [h]

theorem store_mcp_refresh_token_effects_mono (env : OAuthEnv)
    (st : OAuthState) (id token : Str) (x : OAuthEffect) (h : x ∈ st.effects) :
    x ∈ (store_mcp_refresh_token env st id token).effects := by
  unfold store_mcp_refresh_token
  repeat' (first | split | dsimp only)
  all_goals simp [h]

theorem store_mcp_client_id_effects_mono (env : OAuthEnv) (st : OAuthState)
    (id client_id : Str) (auth : Option Str) (x : OAuthEffect)
    (h : x ∈ st.effects) :
    x ∈ (store_mcp_client_id env st id client_id auth).effects := by
  unfold store_mcp_client_id
  repeat' (first | split | dsimp only)
  all_goals simp [h]

theorem assocLookup_insert (m : List (Str × Str)) (k v : Str) :
    assocLookup (assocInsert m k v) k = some v := by
  simp [assocLookup, assocInsert]

/-- C7: manual OAuth completion performs the token exchange only when
the command's target server id equals the pending flow's id.  With no
pending flow, or on a mismatch, the command only logs a warning — the
pending flow and all stored credentials are unchanged and no exchange
happens.  On a match the code extracted from either a raw code or a
pasted redirect URL is exchanged; success clears the pending flow and
stores the access token, while a failed exchange leaves the pending flow
and the token store unchanged. -/
theorem complete_oauth_manual_guarded (env : OAuthEnv)
    (cfg : List McpServerCfg) (st : OAuthState) (server_id : Str)
    (input : ManualAuthInput) :
    (st.pending_oauth = none →
      complete_oauth_manual env cfg st server_id input
        = { st with logs := st.logs ++ [(.warn, .noPendingFlow)] })
    ∧ (∀ pid pending, st.pending_oauth = some (pid, pending) →
        pid ≠ server_id →
        complete_oauth_manual env cfg st server_id input
          = { st with
              logs := st.logs ++ [(.warn, .pendingMismatch pid server_id)] })
    ∧ (∀ pid pending token, st.pending_oauth = some (pid, pending) →
        pid = server_id →
        env.exchangeCode pending (extract_manual_code input) = .ok token →
        OAuthEffect.exchangedCode pending (extract_manual_code input)
            ∈ (complete_oauth_manual env cfg st server_id input).effects
          ∧ (complete_oauth_manual env cfg st server_id input).pending_oauth
            = none
          ∧ assocLookup
              (complete_oauth_manual env cfg st server_id input).tokens
              server_id = some token.access_token)
    ∧ (∀ pid pending e, st.pending_oauth = some (pid, pending) →
        pid = server_id →
        env.exchangeCode pending (extract_manual_code input) = .error e →
        (complete_oauth_manual env cfg st server_id input).pending_oauth
            = st.pending_oauth
          ∧ (complete_oauth_manual env cfg st server_id input).tokens
            = st.tokens
          ∧ (LogLevel.error, OAuthLogMsg.manualExchangeFailed e)
            ∈ (complete_oauth_manual env cfg st server_id input).logs)
    ∧ (∀ c rest, extract_manual_code (ManualAuthInput.rawCode c) = c
        ∧ extract_manual_code (ManualAuthInput.redirectUrl c rest) = c) := by
  refine ⟨?_, ?_, ?_, ?_, fun c rest => ⟨rfl, rfl⟩⟩
  · intro h
    unfold complete_oauth_manual
    rw [h]
  · intro pid pending hpend hne
    unfold complete_oauth_manual
    rw [hpend]
    dsimp only
    rw [if_pos hne]
  · intro pid pending token hpend heq hex
    subst heq
    unfold complete_oauth_manual
    rw [hpend]
    dsimp only
    rw [if_neg (by simp)]
    try dsimp only
    rw [hex]
    try dsimp only
    refine ⟨?_, ?_, ?_⟩
    · repeat' (first | split | dsimp only)
      all_goals
        first
          | (apply store_mcp_client_id_effects_mono)
          | skip
      all_goals
        first
          | (apply store_mcp_refresh_token_effects_mono)
          | skip
      all_goals
        apply store_mcp_token_effects_mono
      all_goals simp
    · repeat' (first | split | dsimp only)
      all_goals
        simp only [store_mcp_client_id_pending, store_mcp_refresh_token_pending,
          store_mcp_token_pending]
    · repeat' (first | split | dsimp only)
      all_goals
        simp only [store_mcp_client_id_tokens, store_mcp_refresh_token_tokens,
          store_mcp_token_tokens]
      all_goals exact assocLookup_insert _ _ _
  · intro pid pending e hpend heq hex
    subst heq
    unfold complete_oauth_manual
    rw [hpend]
    dsimp only
    rw [if_neg (by simp)]
    try dsimp only
    rw [hex]
    try dsimp only
    exact ⟨rfl, rfl, by simp⟩

/-- Pending flow used by the C7 witness. -/
def demoPending : PendingOAuth where
  redirect_uri := "http://127.0.0.1:8976/callback".data
  client_id := some "cid".data
  client_secret := none
  code_verifier := "ver".data
  state_nonce := "nonce".data

/-- OAuth state with a flow pending for `server1`. -/
def demoOAuthState : OAuthState where
  pending_oauth := some ("server1".data, demoPending)
  tokens := []
  refresh_tokens := []
  client_ids := []
  logs := []
  effects := []

/-- OAuth oracle accepting exactly the authorization code `abc`. -/
def demoOAuthEnv : OAuthEnv where
  exchangeCode := fun _ code =>
    if code == "abc".data then .ok ⟨"tok".data, none, none⟩
    else .error "bad code".data
  persistLocalResult := .ok ()
  riceSetResult := fun _ => .ok ()

/-- Witness for C7: a mismatched target id is rejected with everything
unchanged; on the pending id the exchange runs for a raw code and for a
pasted redirect URL alike, clears the flow and stores the token. -/
theorem complete_oauth_manual_guarded_witness :
    (complete_oauth_manual demoOAuthEnv [] demoOAuthState "server2".data
        (ManualAuthInput.rawCode "abc".data)
      = { demoOAuthState with
          logs := [(.warn,
            .pendingMismatch "server1".data "server2".data)] })
    ∧ ((complete_oauth_manual demoOAuthEnv [] demoOAuthState "server1".data
          (ManualAuthInput.rawCode "abc".data)).pending_oauth = none
        ∧ assocLookup
            (complete_oauth_manual demoOAuthEnv [] demoOAuthState
              "server1".data (ManualAuthInput.rawCode "abc".data)).tokens
            "server1".data = some "tok".data)
    ∧ ((complete_oauth_manual demoOAuthEnv [] demoOAuthState "server1".data
          (ManualAuthInput.redirectUrl "abc".data "state=x".data)).pending_oauth
          = none
        ∧ OAuthEffect.exchangedCode demoPending "abc".data
          ∈ (complete_oauth_manual demoOAuthEnv [] demoOAuthState
              "server1".data
              (ManualAuthInput.redirectUrl "abc".data "state=x".data)).effects) := by
  have hmis := (complete_oauth_manual_guarded demoOAuthEnv [] demoOAuthState
    "server2".data (ManualAuthInput.rawCode "abc".data)).2.1
    "server1".data demoPending rfl (by decide)
  have hraw := (complete_oauth_manual_guarded demoOAuthEnv [] demoOAuthState
    "server1".data (ManualAuthInput.rawCode "abc".data)).2.2.1
    "server1".data demoPending ⟨"tok".data, none, none⟩ rfl rfl rfl
  have hurl := (complete_oauth_manual_guarded demoOAuthEnv [] demoOAuthState
    "server1".data
    (ManualAuthInput.redirectUrl "abc".data "state=x".data)).2.2.1
    "server1".data demoPending ⟨"tok".data, none, none⟩ rfl rfl rfl
  exact ⟨hmis, ⟨hraw.2.1, hraw.2.2⟩, ⟨hurl.2.1, hurl.1⟩⟩

-- ── src/local_tools.rs path model (C10) ──────────────────────────────

/-- One `std::path::Component` of an input path (the Windows prefix
component does not arise on the modelled platform). -/
inductive PathComp
  | curDir
  | parentDir
  | normal (seg : Str)
  deriving Repr, DecidableEq

/-- A path as a component list: `absolute` models a leading `RootDir`
component. -/
structure RawPath where
  absolute : Bool
  comps : List PathComp
  deriving Repr, DecidableEq

/-- A normalized path: no `.`/`..` components remain, only plain
segments under an optional root. -/
structure NormPath where
  absolute : Bool
  segs : List Str
  deriving Repr, DecidableEq

/-- One iteration of the `for comp in path.components()` loop of
`normalize_path` from src/local_tools.rs: `.` is skipped, `..` pops the
last segment (`PathBuf::pop`, a no-op at the root), a normal segment is
pushed. -/
def normalizeStep (acc : NormPath) : PathComp → NormPath
  | .curDir => acc
  | .parentDir => { acc with segs := acc.segs.dropLast }
  | .normal seg => { acc with segs := acc.segs ++ [seg] }

/-- `normalize_path` from src/local_tools.rs (an empty result becomes
`.`, represented as the single segment `.`). -/
def normalize_path (p : RawPath) : NormPath :=
  let n := p.comps.foldl normalizeStep ⟨p.absolute, []⟩
  if n.absolute = false ∧ n.segs = [] then ⟨false, [".".data]⟩ else n

/-- `PathBuf::join`: an absolute right side replaces the root path. -/
def path_join (root : NormPath) (p : RawPath) : RawPath :=
  if p.absolute then p
  else ⟨root.absolute, (root.segs.map PathComp.normal) ++ p.comps⟩

/-- `Path::starts_with`: component-wise prefix (the root component must
agree). -/
def path_starts_with (t root : NormPath) : Bool :=
  t.absolute == root.absolute && root.segs.isPrefixOf t.segs

/-- `resolve_workspace_path` from src/local_tools.rs over the component
model; `none` models an empty (or all-whitespace) path argument, which
resolves to the workspace root itself.  Every target outside the
workspace root is rejected before any file-system access. -/
def resolve_workspace_path (workspace_root : NormPath)
    (raw : Option RawPath) : Except Str (NormPath × NormPath) :=
  let target :=
    match raw with
    | none => workspace_root
    | some input =>
        if input.absolute then normalize_path input
        else normalize_path (path_join workspace_root input)
  if path_starts_with target workspace_root then .ok (workspace_root, target)
  else .error "Path escapes workspace root".data

/-- C10: whatever path argument a workspace tool receives, a successful
resolution returns the workspace root and a fully normalized target
(no `.`/`..` left) lying under the workspace root: the root's segment
list is a prefix of the target's.  Any other target is rejected with an
error before the file system is touched. -/
theorem resolve_workspace_path_contained (root : NormPath)
    (raw : Option RawPath) (rt t : NormPath)
    (habs : root.absolute = true)
    (h : resolve_workspace_path root raw = .ok (rt, t)) :
    rt = root ∧ t.absolute = true ∧ root.segs <+: t.segs := by
  have key : ∀ target : NormPath,
      (if path_starts_with target root = true then
          (Except.ok (root, target) : Except Str (NormPath × NormPath))
        else .error "Path escapes workspace root".data) = .ok (rt, t) →
      rt = root ∧ t.absolute = true ∧ root.segs <+: t.segs := by
    intro target hif
    split at hif
    · rename_i hsw
      injection hif with hpair
      have hrt : rt = root := (congrArg Prod.fst hpair).symm
      have ht : t = target := (congrArg Prod.snd hpair).symm
      rw [path_starts_with, Bool.and_eq_true] at hsw
      refine ⟨hrt, ?_, ?_⟩
      · rw [ht, show target.absolute = root.absolute from eq_of_beq hsw.1, habs]
      · rw [ht]
        exact List.isPrefixOf_iff_prefix.mp hsw.2
    · exact Except.noConfusion hif
  unfold resolve_workspace_path at h
  cases raw with
  | none => exact key root h
  | some input =>
      dsimp only at h
      exact key _ h

/-- Workspace root `/home/user/ws` used by the C10 witness. -/
def demoRoot : NormPath where
  absolute := true
  segs := ["home".data, "user".data, "ws".data]

/-- Relative argument `src/../lib/./a.txt` used by the C10 witness. -/
def demoArg : RawPath where
  absolute := false
  comps := [.normal "src".data, .parentDir, .normal "lib".data, .curDir,
    .normal "a.txt".data]

/-- Witness for C10: resolving `src/../lib/./a.txt` against
`/home/user/ws` yields `/home/user/ws/lib/a.txt`, under the root. -/
theorem resolve_workspace_path_contained_witness :
    demoRoot = demoRoot
      ∧ (NormPath.mk true
          ["home".data, "user".data, "ws".data, "lib".data,
            "a.txt".data]).absolute = true
      ∧ demoRoot.segs <+: (NormPath.mk true
          ["home".data, "user".data, "ws".data, "lib".data,
            "a.txt".data]).segs :=
  resolve_workspace_path_contained demoRoot (some demoArg) demoRoot
    (NormPath.mk true
      ["home".data, "user".data, "ws".data, "lib".data, "a.txt".data])
    rfl rfl
